import Mathlib

/-!
Verification of the makeprojects project-file generator.

Strings of the Python source are modelled as `List Char` (`Str`), so that
all definitions are executable and all string lemmas can be proved by
structural induction.  Every definition below is translated from the
repository source (`makeprojects/enums.py`, `makeprojects/core.py`,
`makeprojects/__init__.py`, `makeprojects/watcom.py`,
`makeprojects/codewarrior.py`, `makeprojects/build_rules.py`), except a
few definitions explicitly marked `Modelled from the spec:` for code that
the repository calls but does not ship (the new-style
`core.Solution` / `core.Project` / `core.Configuration` model).
-/

/-- Python strings, modelled as lists of characters. -/
abbrev Str := List Char

namespace PyStr

/-- Python `str.lower()` restricted to ASCII, which is all the source uses. -/
def lower (s : Str) : Str := s.map Char.toLower

/-- `burger.convert_to_windows_slashes`: replace every `/` with `\`. -/
def winslash (s : Str) : Str := s.map (fun c => if c = '/' then '\\' else c)

/-- `burger.convert_to_linux_slashes`: replace every `\` with `/`. -/
def linslash (s : Str) : Str := s.map (fun c => if c = '\\' then '/' else c)

/-- Python `a.endswith(b)`. -/
def endswith (s suffix : Str) : Bool := suffix.isSuffixOf s

/-- Python `a.startswith(b)`. -/
def startswith (s p : Str) : Bool := p.isPrefixOf s

/-- `os.path.join(a, b)` for POSIX hosts (the slash convention the old
`core.py` uses on the scanning host). -/
def pyJoin (a b : Str) : Str :=
  if startswith b ['/'] then b
  else if a = [] then b
  else if a.getLast? = some '/' then a ++ b
  else a ++ '/' :: b

/-- Byte-wise (code-point) lexicographic `<=`, the ordering of Python 2
`cmp` on strings. -/
def strLe : Str → Str → Bool
  | [], _ => true
  | _ :: _, [] => false
  | a :: as, b :: bs => if a = b then strLe as bs else decide (a.toNat < b.toNat)

theorem strLe_total (a b : Str) : strLe a b = true ∨ strLe b a = true := by
  induction a generalizing b with
  | nil => left; rfl
  | cons x xs ih =>
    cases b with
    | nil => right; rfl
    | cons y ys =>
      by_cases h : x = y
      · subst h
        rcases ih ys with h' | h'
        · left; simp [strLe, h']
        · right; simp [strLe, h']
      · rcases Nat.lt_or_ge x.toNat y.toNat with h' | h'
        · left; simp [strLe, h, h']
        · right
          have hne : y ≠ x := fun hyx => h hyx.symm
          have : y.toNat < x.toNat := by
            rcases Nat.lt_or_ge y.toNat x.toNat with h2 | h2
            · exact h2
            · have hnn : y.toNat = x.toNat := Nat.le_antisymm h' h2
              have : y = x := by
                have := congrArg Char.ofNat hnn
                rwa [Char.ofNat_toNat, Char.ofNat_toNat] at this
              exact absurd this hne
          simp [strLe, hne, this]

theorem strLe_antisymm {a b : Str} (h1 : strLe a b = true) (h2 : strLe b a = true) :
    a = b := by
  induction a generalizing b with
  | nil =>
    cases b with
    | nil => rfl
    | cons y ys => simp [strLe] at h2
  | cons x xs ih =>
    cases b with
    | nil => simp [strLe] at h1
    | cons y ys =>
      by_cases h : x = y
      · subst h
        simp only [strLe, if_pos rfl] at h1 h2
        exact congrArg (x :: ·) (ih h1 h2)
      · have hne : y ≠ x := fun hyx => h hyx.symm
        simp only [strLe, if_neg h, decide_eq_true_eq] at h1
        simp only [strLe, if_neg hne, decide_eq_true_eq] at h2
        exact absurd (Nat.lt_trans h1 h2) (Nat.lt_irrefl _)

theorem strLe_trans {a b c : Str} (h1 : strLe a b = true) (h2 : strLe b c = true) :
    strLe a c = true := by
  induction a generalizing b c with
  | nil => rfl
  | cons x xs ih =>
    cases b with
    | nil => simp [strLe] at h1
    | cons y ys =>
      cases c with
      | nil => simp [strLe] at h2
      | cons z zs =>
        by_cases hxy : x = y
        · subst hxy
          by_cases hyz : x = z
          · subst hyz
            simp only [strLe, if_pos rfl] at h1 h2 ⊢
            exact ih h1 h2
          · simp only [strLe, if_neg hyz] at h2 ⊢
            exact h2
        · simp only [strLe, if_neg hxy, decide_eq_true_eq] at h1
          by_cases hyz : y = z
          · subst hyz
            simp [strLe, hxy, h1]
          · simp only [strLe, if_neg hyz, decide_eq_true_eq] at h2
            have hxz : x ≠ z := by
              intro he; subst he
              exact absurd (Nat.lt_trans h1 h2) (Nat.lt_irrefl _)
            simp [strLe, hxz, Nat.lt_trans h1 h2]

end PyStr

/-! ### `makeprojects/enums.py`: PlatformTypes -/

/-- `enums.PlatformTypes`: enumeration of supported target platforms.
The `AutoIntEnum` metaclass assigns consecutive integer values starting
at 0 in declaration order; `pyVal` below records them. -/
inductive PlatformTypes where
  | windows | win32 | win64
  | macosx | macosxppc32 | macosxppc64 | macosxintel32 | macosxintel64
  | macos9 | macos968k | macos9ppc | maccarbon | maccarbon68k | maccarbonppc
  | ios | ios32 | ios64 | iosemu | iosemu32 | iosemu64
  | xbox | xbox360 | xboxone
  | ps3 | ps4 | vita
  | wiiu | switch | dsi | ds
  | android | shield | amico | ouya
  | androidarm32 | androidarm64 | androidintel32 | androidintel64
  | linux
  | msdos | msdos4gw | msdosx32
  | beos | iigs
  deriving DecidableEq, Repr, Fintype

namespace PlatformTypes

/-- The auto-incremented integer value of each member (`AutoIntEnum`
starts at 0 with `windows`). -/
def pyVal : PlatformTypes → Nat
  | windows => 0 | win32 => 1 | win64 => 2
  | macosx => 3 | macosxppc32 => 4 | macosxppc64 => 5
  | macosxintel32 => 6 | macosxintel64 => 7
  | macos9 => 8 | macos968k => 9 | macos9ppc => 10
  | maccarbon => 11 | maccarbon68k => 12 | maccarbonppc => 13
  | ios => 14 | ios32 => 15 | ios64 => 16
  | iosemu => 17 | iosemu32 => 18 | iosemu64 => 19
  | xbox => 20 | xbox360 => 21 | xboxone => 22
  | ps3 => 23 | ps4 => 24 | vita => 25
  | wiiu => 26 | switch => 27 | dsi => 28 | ds => 29
  | android => 30 | shield => 31 | amico => 32 | ouya => 33
  | androidarm32 => 34 | androidarm64 => 35
  | androidintel32 => 36 | androidintel64 => 37
  | linux => 38
  | msdos => 39 | msdos4gw => 40 | msdosx32 => 41
  | beos => 42 | iigs => 43

/-- `PlatformTypes.is_windows`. -/
def is_windows (self : PlatformTypes) : Bool :=
  [windows, win32, win64].contains self

/-- `PlatformTypes.is_macosx`. -/
def is_macosx (self : PlatformTypes) : Bool :=
  [macosx, macosxppc32, macosxppc64, macosxintel32, macosxintel64].contains self

/-- `PlatformTypes.is_ios`. -/
def is_ios (self : PlatformTypes) : Bool :=
  [ios, ios32, ios64, iosemu, iosemu32, iosemu64].contains self

/-- `PlatformTypes.is_macos_carbon`. -/
def is_macos_carbon (self : PlatformTypes) : Bool :=
  [maccarbon, maccarbon68k, maccarbonppc].contains self

/-- `PlatformTypes.is_macos_classic`. -/
def is_macos_classic (self : PlatformTypes) : Bool :=
  [macos9, macos968k, macos9ppc].contains self

/-- `PlatformTypes.is_macos`. -/
def is_macos (self : PlatformTypes) : Bool :=
  self.is_macos_classic || self.is_macos_carbon

/-- `PlatformTypes.is_msdos`. -/
def is_msdos (self : PlatformTypes) : Bool :=
  [msdos, msdos4gw, msdosx32].contains self

/-- `PlatformTypes.is_android`. -/
def is_android (self : PlatformTypes) : Bool :=
  [android, shield, ouya, amico, androidarm32, androidarm64,
   androidintel32, androidintel64].contains self

/-- `PlatformTypes.match(self, second)` (renamed `pmatch`: `match` is a
Lean keyword).  Line-by-line translation of the cascade of wildcard
tests in `enums.py`. -/
def pmatch (self second : PlatformTypes) : Bool :=
  if self = second then true
  -- Test using the windows wildcard
  else if self = windows || second = windows then
    self.is_windows == second.is_windows
  -- Test macosx
  else if self = macosx || second = macosx then
    self.is_macosx == second.is_macosx
  -- Test macos 1.0 - 9.2.2
  else if self = macos9 || second = macos9 then
    self.is_macos_classic == second.is_macos_classic
  -- Test macos Carbon
  else if self = maccarbon || second = maccarbon then
    self.is_macos_carbon == second.is_macos_carbon
  -- Test iOS
  else if self = ios || second = ios then
    self.is_ios == second.is_ios
  -- Test MSDos
  else if self = msdos || second = msdos then
    self.is_msdos == second.is_msdos
  -- Test Android
  else if self = android || second = android then
    self.is_android == second.is_android
  else false

/-- `enums._PLATFORMTYPES_EXPANDED`: platforms that expand to multiple
targets. -/
def PLATFORMTYPES_EXPANDED : List (PlatformTypes × List PlatformTypes) :=
  [(windows, [win32, win64]),
   (msdos, [msdosx32, msdos4gw]),
   (macosx, [macosxppc32, macosxppc64, macosxintel32, macosxintel64]),
   (macos9, [macos968k, macos9ppc]),
   (maccarbon, [maccarbon68k, maccarbonppc]),
   (ios, [ios32, ios64]),
   (iosemu, [iosemu32, iosemu64]),
   (android, [androidarm32, androidarm64, androidintel32, androidintel64])]

/-- `PlatformTypes.get_expanded`: `_PLATFORMTYPES_EXPANDED.get(self, [self])`. -/
def get_expanded (self : PlatformTypes) : List PlatformTypes :=
  match PLATFORMTYPES_EXPANDED.lookup self with
  | some l => l
  | none => [self]

/-- `PlatformTypes.is_expandable`: `self in _PLATFORMTYPES_EXPANDED`. -/
def is_expandable (self : PlatformTypes) : Bool :=
  (PLATFORMTYPES_EXPANDED.lookup self).isSome

end PlatformTypes


/-! ### `makeprojects/enums.py`: remaining enumerations and lookup tables -/

/-- `enums.FileTypes` (the modern enumeration in `enums.py`). -/
inductive FileTypes where
  | user | generic | c | cpp | h | m | xml | rc | r
  | hlsl | glsl | x360sl | vitacg | frameworks | library | exe
  | xcconfig | x86 | x64 | a65 | ppc | a68 | image | ico | icns
  deriving DecidableEq, Repr

/-- `enums.ProjectTypes`. -/
inductive ProjectTypes where
  | library | tool | app | screensaver | sharedlibrary | empty
  deriving DecidableEq, Repr

namespace ProjectTypes

/-- Auto-incremented integer value (`library` is 0, so it is falsy in
Python boolean context). -/
def pyVal : ProjectTypes → Nat
  | library => 0 | tool => 1 | app => 2
  | screensaver => 3 | sharedlibrary => 4 | empty => 5

/-- The Python member names of `ProjectTypes`, in declaration order. -/
def memberNames : List (Str × ProjectTypes) :=
  [("library".toList, library), ("tool".toList, tool), ("app".toList, app),
   ("screensaver".toList, screensaver),
   ("sharedlibrary".toList, sharedlibrary), ("empty".toList, empty)]

/-- `enums._PROJECTTYPES_READABLE` in insertion order (Python dicts keep
insertion order). -/
def PROJECTTYPES_READABLE : List (ProjectTypes × Str) :=
  [(library, "Library".toList), (tool, "Tool".toList),
   (app, "Application".toList), (screensaver, "ScreenSaver".toList),
   (sharedlibrary, "Dynamic Library".toList), (empty, "Empty".toList)]

end ProjectTypes

/-- `enums.IDETypes`. -/
inductive IDETypes where
  | vs2003 | vs2005 | vs2008 | vs2010 | vs2012 | vs2013 | vs2015 | vs2017 | vs2019
  | watcom
  | codewarrior50 | codewarrior58 | codewarrior59
  | xcode3 | xcode4 | xcode5 | xcode6 | xcode7 | xcode8 | xcode9 | xcode10
  | codeblocks
  | nmake
  | make
  | bazel
  deriving DecidableEq, Repr

namespace IDETypes

/-- Auto-incremented integer value (`vs2003` is 0, so it is falsy in
Python boolean context). -/
def pyVal : IDETypes → Nat
  | vs2003 => 0 | vs2005 => 1 | vs2008 => 2 | vs2010 => 3 | vs2012 => 4
  | vs2013 => 5 | vs2015 => 6 | vs2017 => 7 | vs2019 => 8
  | watcom => 9
  | codewarrior50 => 10 | codewarrior58 => 11 | codewarrior59 => 12
  | xcode3 => 13 | xcode4 => 14 | xcode5 => 15 | xcode6 => 16 | xcode7 => 17
  | xcode8 => 18 | xcode9 => 19 | xcode10 => 20
  | codeblocks => 21 | nmake => 22 | make => 23 | bazel => 24

/-- The Python member names of `IDETypes`, in declaration order. -/
def memberNames : List (Str × IDETypes) :=
  [("vs2003".toList, vs2003), ("vs2005".toList, vs2005),
   ("vs2008".toList, vs2008), ("vs2010".toList, vs2010),
   ("vs2012".toList, vs2012), ("vs2013".toList, vs2013),
   ("vs2015".toList, vs2015), ("vs2017".toList, vs2017),
   ("vs2019".toList, vs2019), ("watcom".toList, watcom),
   ("codewarrior50".toList, codewarrior50),
   ("codewarrior58".toList, codewarrior58),
   ("codewarrior59".toList, codewarrior59),
   ("xcode3".toList, xcode3), ("xcode4".toList, xcode4),
   ("xcode5".toList, xcode5), ("xcode6".toList, xcode6),
   ("xcode7".toList, xcode7), ("xcode8".toList, xcode8),
   ("xcode9".toList, xcode9), ("xcode10".toList, xcode10),
   ("codeblocks".toList, codeblocks), ("nmake".toList, nmake),
   ("make".toList, make), ("bazel".toList, bazel)]

/-- `enums._IDETYPES_CODES`. -/
def IDETYPES_CODES : List (IDETypes × Str) :=
  [(vs2003, "vc7".toList), (vs2005, "vc8".toList), (vs2008, "vc9".toList),
   (vs2010, "v10".toList), (vs2012, "v12".toList), (vs2013, "v13".toList),
   (vs2015, "v15".toList), (vs2017, "v17".toList), (vs2019, "v19".toList),
   (watcom, "wat".toList),
   (codewarrior50, "c50".toList), (codewarrior58, "c58".toList),
   (codewarrior59, "c59".toList),
   (xcode3, "xc3".toList), (xcode4, "xc4".toList), (xcode5, "xc5".toList),
   (xcode6, "xc6".toList), (xcode7, "xc7".toList), (xcode8, "xc8".toList),
   (xcode9, "xc9".toList), (xcode10, "x10".toList),
   (codeblocks, "cdb".toList), (nmake, "nmk".toList), (make, "mak".toList),
   (bazel, "bzl".toList)]

/-- `enums._IDETYPES_READABLE` in insertion order. -/
def IDETYPES_READABLE : List (IDETypes × Str) :=
  [(vs2003, "Visual Studio 2003".toList), (vs2005, "Visual Studio 2005".toList),
   (vs2008, "Visual Studio 2008".toList), (vs2010, "Visual Studio 2010".toList),
   (vs2012, "Visual Studio 2012".toList), (vs2013, "Visual Studio 2013".toList),
   (vs2015, "Visual Studio 2015".toList), (vs2017, "Visual Studio 2017".toList),
   (vs2019, "Visual Studio 2019".toList),
   (watcom, "Open Watcom 1.9 wmake".toList),
   (codewarrior50, "CodeWarrior 9".toList),
   (codewarrior58, "CodeWarrior 10".toList),
   (codewarrior59, "Freescale CodeWarrior 5.9".toList),
   (xcode3, "XCode 3.1.4".toList), (xcode4, "XCode 4".toList),
   (xcode5, "XCode 5".toList), (xcode6, "XCode 6".toList),
   (xcode7, "XCode 7".toList), (xcode8, "XCode 8".toList),
   (xcode9, "XCode 9".toList), (xcode10, "XCode 10".toList),
   (codeblocks, "CodeBlocks 13.12".toList), (nmake, "GNU make".toList),
   (make, "Linux make".toList), (bazel, "Bazel build".toList)]

/-- `IDETypes.get_short_code`. -/
def get_short_code (self : IDETypes) : Option Str :=
  IDETYPES_CODES.lookup self

/-- `IDETypes.is_codewarrior`. -/
def is_codewarrior (self : IDETypes) : Bool :=
  [codewarrior50, codewarrior58, codewarrior59].contains self

end IDETypes

namespace PlatformTypes

/-- The Python member names of `PlatformTypes`, in declaration order. -/
def memberNames : List (Str × PlatformTypes) :=
  [("windows".toList, windows), ("win32".toList, win32), ("win64".toList, win64),
   ("macosx".toList, macosx), ("macosxppc32".toList, macosxppc32),
   ("macosxppc64".toList, macosxppc64), ("macosxintel32".toList, macosxintel32),
   ("macosxintel64".toList, macosxintel64),
   ("macos9".toList, macos9), ("macos968k".toList, macos968k),
   ("macos9ppc".toList, macos9ppc), ("maccarbon".toList, maccarbon),
   ("maccarbon68k".toList, maccarbon68k), ("maccarbonppc".toList, maccarbonppc),
   ("ios".toList, ios), ("ios32".toList, ios32), ("ios64".toList, ios64),
   ("iosemu".toList, iosemu), ("iosemu32".toList, iosemu32),
   ("iosemu64".toList, iosemu64),
   ("xbox".toList, xbox), ("xbox360".toList, xbox360), ("xboxone".toList, xboxone),
   ("ps3".toList, ps3), ("ps4".toList, ps4), ("vita".toList, vita),
   ("wiiu".toList, wiiu), ("switch".toList, switch), ("dsi".toList, dsi),
   ("ds".toList, ds),
   ("android".toList, android), ("shield".toList, shield),
   ("amico".toList, amico), ("ouya".toList, ouya),
   ("androidarm32".toList, androidarm32), ("androidarm64".toList, androidarm64),
   ("androidintel32".toList, androidintel32),
   ("androidintel64".toList, androidintel64),
   ("linux".toList, linux),
   ("msdos".toList, msdos), ("msdos4gw".toList, msdos4gw),
   ("msdosx32".toList, msdosx32),
   ("beos".toList, beos), ("iigs".toList, iigs)]

/-- `enums._PLATFORMTYPES_CODES`. -/
def PLATFORMTYPES_CODES : List (PlatformTypes × Str) :=
  [(windows, "win".toList), (win32, "w32".toList), (win64, "w64".toList),
   (macosx, "osx".toList), (macosxppc32, "osxp32".toList),
   (macosxppc64, "osxp64".toList), (macosxintel32, "osxx86".toList),
   (macosxintel64, "osxx64".toList),
   (macos9, "mac".toList), (macos968k, "mac68k".toList),
   (macos9ppc, "macppc".toList), (maccarbon, "car".toList),
   (maccarbon68k, "car68k".toList), (maccarbonppc, "carppc".toList),
   (ios, "ios".toList), (ios32, "iosa32".toList), (ios64, "iosa64".toList),
   (iosemu, "ioe".toList), (iosemu32, "ioex86".toList),
   (iosemu64, "ioex64".toList),
   (xbox, "xbx".toList), (xbox360, "x36".toList), (xboxone, "one".toList),
   (ps3, "ps3".toList), (ps4, "ps4".toList), (vita, "vit".toList),
   (wiiu, "wiu".toList), (switch, "swi".toList), (dsi, "dsi".toList),
   (ds, "2ds".toList),
   (android, "and".toList), (shield, "shi".toList), (amico, "ami".toList),
   (ouya, "oya".toList),
   (androidarm32, "anda32".toList), (androidarm64, "anda64".toList),
   (androidintel32, "andx32".toList), (androidintel64, "andx64".toList),
   (linux, "lnx".toList),
   (msdos, "dos".toList), (msdos4gw, "dos4gw".toList),
   (msdosx32, "dosx32".toList),
   (beos, "beo".toList), (iigs, "2gs".toList)]

/-- `PlatformTypes.get_short_code`. -/
def get_short_code (self : PlatformTypes) : Option Str :=
  PLATFORMTYPES_CODES.lookup self

/-- `enums._PLATFORMTYPES_READABLE` in insertion order. -/
def PLATFORMTYPES_READABLE : List (PlatformTypes × Str) :=
  [(windows, "Microsoft Windows x86 and x64".toList),
   (win32, "Microsoft Windows x86".toList),
   (win64, "Microsoft Windows x64".toList),
   (macosx, "Apple macOS all CPUs".toList),
   (macosxppc32, "Apple macOS PowerPC 32".toList),
   (macosxppc64, "Apple macOS PowerPC 64".toList),
   (macosxintel32, "Apple macOS x86".toList),
   (macosxintel64, "Apple macOS x64".toList),
   (macos9, "Apple MacOS 9 PPC and 68k".toList),
   (macos968k, "Apple MacOS 9 68k".toList),
   (macos9ppc, "Apple MacOS 9 PowerPC 32".toList),
   (maccarbon, "Apple MacOS Carbon".toList),
   (maccarbon68k, "Apple MacOS Carbon 68k".toList),
   (maccarbonppc, "Apple MacOS Carbon PowerPC 32".toList),
   (ios, "Apple iOS".toList), (ios32, "Apple iOS ARM 32".toList),
   (ios64, "Apple iOS ARM 64".toList), (iosemu, "Apple iOS Emulator".toList),
   (iosemu32, "Apple iOS Emulator x86".toList),
   (iosemu64, "Apple iOS Emulator x64".toList),
   (xbox, "Microsoft Xbox".toList), (xbox360, "Microsoft Xbox 360".toList),
   (xboxone, "Microsoft Xbox ONE".toList),
   (ps3, "Sony PS3".toList), (ps4, "Sony PS4".toList),
   (vita, "Sony Playstation Vita".toList),
   (wiiu, "Nintendo WiiU".toList), (switch, "Nintendo Switch".toList),
   (dsi, "Nintendo DSI".toList), (ds, "Nintendo 2DS".toList),
   (android, "Google Android".toList), (shield, "nVidia Shield".toList),
   (amico, "Intellivision Amico".toList), (ouya, "Ouya".toList),
   (androidarm32, "Android ARM 32".toList),
   (androidarm64, "Android ARM 64".toList),
   (androidintel32, "Android x86".toList),
   (androidintel64, "Android x64".toList),
   (linux, "Linux".toList),
   (msdos, "MSDos DOS4GW and X32".toList), (msdos4gw, "MSDos DOS4GW".toList),
   (msdosx32, "MSDos X32".toList),
   (beos, "BeOS".toList), (iigs, "Apple IIgs".toList)]

/-- `enums._PLATFORMTYPES_VS` (Visual Studio platform aliases). -/
def PLATFORMTYPES_VS : List (PlatformTypes × List Str) :=
  [(windows, ["Win32".toList, "x64".toList]),
   (win32, ["Win32".toList]), (win64, ["x64".toList]),
   (xbox, ["Xbox".toList]), (xbox360, ["Xbox 360".toList]),
   (xboxone, ["Xbox ONE".toList]),
   (ps3, ["PS3".toList]), (ps4, ["ORBIS".toList]), (vita, ["PSVita".toList]),
   (wiiu, ["Cafe".toList]), (dsi, ["CTR".toList]), (switch, ["Switch".toList]),
   (android, ["Android".toList]),
   (shield, ["Tegra-Android".toList, "ARM-Android-NVIDIA".toList,
             "AArch64-Android-NVIDIA".toList, "x86-Android-NVIDIA".toList,
             "x64-Android-NVIDIA".toList]),
   (androidarm32, ["ARM-Android-NVIDIA".toList]),
   (androidarm64, ["AArch64-Android-NVIDIA".toList]),
   (androidintel32, ["x86-Android-NVIDIA".toList]),
   (androidintel64, ["x64-Android-NVIDIA".toList])]

end PlatformTypes

/-! ### `enums.py`: lookup functions and `default()` -/

/-- Python truthiness of an optional string (`None` and `''` are falsy). -/
def pyTruthyStr : Option Str → Bool
  | none => false
  | some s => s ≠ []

/-- `enums.configuration_short_code`. -/
def configuration_short_code (configuration_name : Str) : Option Str :=
  ([("Debug".toList, "dbg".toList), ("Release".toList, "rel".toList),
    ("Internal".toList, "int".toList), ("Profile".toList, "pro".toList),
    ("Release_LTCG".toList, "ltc".toList),
    ("CodeAnalysis".toList, "cod".toList),
    ("Profile_FastCap".toList, "fas".toList)]).lookup configuration_name

/-- `ProjectTypes.lookup`.  The argument is either an already-typed member
or a string.  Note two oddities kept from the source: the initial
`if project_type_name:` makes a member whose integer value is 0 skip the
whole body, and the `hasattr` test uses the *original* string, not the
lowered `test_name`.  (`hasattr` is modelled as membership among the
member names; inputs naming non-member class attributes, e.g. `"lookup"`,
are outside the model.) -/
def ProjectTypes.lookup : ProjectTypes ⊕ Str → Option ProjectTypes
  | .inl m =>
    if m.pyVal ≠ 0 then some m else none
  | .inr s =>
    if s ≠ [] then
      let test_name := PyStr.lower s
      match ProjectTypes.memberNames.lookup s with
      | some m => some m
      | none =>
        match ProjectTypes.PROJECTTYPES_READABLE.find?
            (fun it => PyStr.lower it.2 == test_name) with
        | some it => some it.1
        | none =>
          if test_name = "lib".toList then some ProjectTypes.library
          else if test_name = "game".toList then some ProjectTypes.app
          else if test_name = "dll".toList then some ProjectTypes.sharedlibrary
          else none
    else none

/-- `ProjectTypes.default`. -/
def ProjectTypes.default : ProjectTypes := ProjectTypes.tool

/-- `IDETypes.lookup`.  `get_installed_visual_studio()` and
`get_installed_xcode()` probe the host, so their results are passed in as
parameters.  Same falsy-member / `hasattr` modelling as
`ProjectTypes.lookup` (here `hasattr` is given the lowered name, as in
the source). -/
def IDETypes.lookup (installedVS installedXcode : Option IDETypes) :
    IDETypes ⊕ Str → Option IDETypes
  | .inl m =>
    if m.pyVal ≠ 0 then some m else none
  | .inr s =>
    if s ≠ [] then
      let test_name := PyStr.lower s
      match IDETypes.memberNames.lookup test_name with
      | some m => some m
      | none =>
        match IDETypes.IDETYPES_READABLE.find? (fun it =>
            PyStr.lower it.2 == test_name ||
            (IDETypes.IDETYPES_CODES.lookup it.1).getD [] == test_name) with
        | some it => some it.1
        | none =>
          if (["vs", "visualstudio", "visual_studio", "visual studio"].map
              String.toList).contains s then installedVS
          else if s = "xcode".toList then installedXcode
          else if (["codewarrior", "metrowerks", "cw", "freescale"].map
              String.toList).contains s then some IDETypes.codewarrior50
          else none
    else none

/-- `PlatformTypes.lookup`.  Same falsy-member / `hasattr` modelling as
the other two lookups. -/
def PlatformTypes.lookup : PlatformTypes ⊕ Str → Option PlatformTypes
  | .inl m =>
    if m.pyVal ≠ 0 then some m else none
  | .inr s =>
    if s ≠ [] then
      let test_name := PyStr.lower s
      match PlatformTypes.memberNames.lookup test_name with
      | some m => some m
      | none =>
        match PlatformTypes.PLATFORMTYPES_READABLE.find? (fun it =>
            PyStr.lower it.2 == test_name ||
            (PlatformTypes.PLATFORMTYPES_CODES.lookup it.1).getD [] == test_name ||
            (!it.1.is_expandable &&
              ((PlatformTypes.PLATFORMTYPES_VS.lookup it.1).getD []).any
                (fun v => PyStr.lower v == test_name))) with
        | some it => some it.1
        | none => none
    else none

/-- The `mac_table` dictionary lookup inside `PlatformTypes.default`. -/
def PlatformTypes.macTableGet (temp : Str) : PlatformTypes :=
  (([("ppc".toList, PlatformTypes.macosxppc32),
     ("ppc64".toList, PlatformTypes.macosxppc64),
     ("x32".toList, PlatformTypes.macosxintel32),
     ("x64".toList, PlatformTypes.macosxintel64)]).lookup temp).getD
    PlatformTypes.macosxintel64

/-- `PlatformTypes.default`.  The host probes
`burger.get_windows_host_type()` / `burger.get_mac_host_type()` return a
CPU string or a falsy value; they are passed in as parameters.  Note the
faithful translation of the Mac branch: the source computes
`mac_table.get(temp, PlatformTypes.macosxintel64)` but is missing a
`return`, so the value is discarded and control falls through to
`return PlatformTypes.linux`. -/
def PlatformTypes.default (winHostType macHostType : Option Str) :
    PlatformTypes :=
  -- Windows host?
  if pyTruthyStr winHostType then
    if winHostType = some "x64".toList then PlatformTypes.win64
    else PlatformTypes.win32
  else
    -- Mac host?  The table lookup result is dropped on the floor.
    let _ := if pyTruthyStr macHostType then
        some (PlatformTypes.macTableGet (macHostType.getD [])) else none
    -- Unknown platforms default to Linux
    PlatformTypes.linux

/-- `ProjectTypes.is_library`.
Modelled from the spec: `core.py`'s new-style model (not shipped under
`src/`) gives `ProjectTypes` an `is_library()` predicate that
"partitions the set into 'produces an archive' vs 'produces a binary'";
the archive producers are the static and the shared library. -/
def ProjectTypes.is_library (self : ProjectTypes) : Bool :=
  [ProjectTypes.library, ProjectTypes.sharedlibrary].contains self

/-! ### Claims about the enumerations (C2, C3, C5, C10) -/

/-- C3: Platform match symmetry — for all `PlatformTypes` values `a` and
`b`, `a.match(b) == b.match(a)`. -/
theorem c3_match_symmetric : ∀ a b : PlatformTypes, a.pmatch b = b.pmatch a := by
  decide

/-- C2 counterexample: the claim "`F.match(m)` is true for every member
`m` of `F`'s expansion, and `F.match(X)` is false for every platform `X`
that is neither `F` nor a member of `F`'s expansion" fails on the code:
`iosemu` does not match its own member `iosemu32` (no `iosemu` wildcard
test exists in `match`), while `android` matches `shield`, which is not
in `android`'s expansion. -/
theorem c2_family_match_counterexample :
    (PlatformTypes.iosemu32 ∈ PlatformTypes.iosemu.get_expanded ∧
      PlatformTypes.iosemu.pmatch .iosemu32 = false) ∧
    (PlatformTypes.shield ∉ PlatformTypes.android.get_expanded ∧
      PlatformTypes.shield ≠ PlatformTypes.android ∧
      PlatformTypes.android.pmatch .shield = true) := by
  decide

set_option maxHeartbeats 1000000 in
/-- C2 (amended): for every expandable (family) platform `F` and member
`m` of its expansion, `F.match(m)` is true **except** for the family
`iosemu`, where it is false; and for `X` neither `F` itself nor in `F`'s
expansion, `F.match(X)` is false **except** for the pairs
(`android`, `shield`/`amico`/`ouya`), (`ios`, `iosemu`/`iosemu32`/`iosemu64`)
and (`iosemu`, `ios`), where it is true. -/
theorem c2_family_match_amended : ∀ F X : PlatformTypes,
    F.is_expandable = true →
    (X ∈ F.get_expanded → (F.pmatch X = true ↔ F ≠ .iosemu)) ∧
    (X ∉ F.get_expanded → X ≠ F → (F.pmatch X = true ↔
      ((F = .android ∧ (X = .shield ∨ X = .amico ∨ X = .ouya)) ∨
       (F = .ios ∧ (X = .iosemu ∨ X = .iosemu32 ∨ X = .iosemu64)) ∨
       (F = .iosemu ∧ X = .ios)))) := by
  decide

/-- Witness for `c2_family_match_amended` at the concrete family
`windows` and member `win32`. -/
theorem c2_family_match_witness :
    PlatformTypes.windows.is_expandable = true ∧
    (PlatformTypes.win32 ∈ PlatformTypes.windows.get_expanded →
      (PlatformTypes.windows.pmatch .win32 = true ↔
        PlatformTypes.windows ≠ .iosemu)) :=
  ⟨by decide, fun h => (c2_family_match_amended .windows .win32 (by decide)).1 h⟩

/-- C5: evaluation of the three `lookup` functions at the inputs where
the enumeration-lookup contract fails.  The members with auto-assigned
integer value 0 (`ProjectTypes.library`, `IDETypes.vs2003`,
`PlatformTypes.windows`) are falsy in Python, so `if name:` skips the
body and `lookup` returns `None` instead of the member itself; and
`ProjectTypes.lookup` passes the *unlowered* string to `hasattr`, so the
case-insensitive member-name lookup fails for `"App"` even though
`"app"` succeeds.  The last two conjuncts show the intended behaviour on
neighbouring inputs. -/
theorem c5_lookup_failing_inputs :
    ProjectTypes.lookup (.inl .library) = none ∧
    IDETypes.lookup none none (.inl .vs2003) = none ∧
    PlatformTypes.lookup (.inl .windows) = none ∧
    ProjectTypes.lookup (.inr "App".toList) = none ∧
    ProjectTypes.lookup (.inr "app".toList) = some .app ∧
    PlatformTypes.lookup (.inl .win32) = some .win32 ∧
    PlatformTypes.lookup (.inr "bogus".toList) = none :=
  ⟨rfl, rfl, rfl, rfl, rfl, rfl, rfl⟩

/-- C10: for every host-probe outcome, `PlatformTypes.default()` returns
a concrete, non-expandable platform — one of `win32`, `win64`, `linux` —
and whenever the host is not reported as Windows (including a Mac host)
it returns `linux`, because the Mac CPU table lookup result is computed
but never returned. -/
theorem c10_default_platform : ∀ win mac : Option Str,
    ((PlatformTypes.default win mac).is_expandable = false ∧
     (PlatformTypes.default win mac = .win32 ∨
      PlatformTypes.default win mac = .win64 ∨
      PlatformTypes.default win mac = .linux)) ∧
    (pyTruthyStr win = false → PlatformTypes.default win mac = .linux) := by
  intro win mac
  unfold PlatformTypes.default
  by_cases h : pyTruthyStr win = true
  · rw [if_pos h]
    by_cases h2 : win = some "x64".toList
    · rw [if_pos h2]
      exact ⟨⟨by decide, Or.inr (Or.inl rfl)⟩,
        fun hf => absurd h (by simp [hf])⟩
    · rw [if_neg h2]
      exact ⟨⟨by decide, Or.inl rfl⟩, fun hf => absurd h (by simp [hf])⟩
  · rw [if_neg h]
    exact ⟨⟨by decide, Or.inr (Or.inr rfl)⟩, fun _ => rfl⟩

/-- Witness for `c10_default_platform`: a Mac host reporting a PowerPC
CPU still yields `linux`. -/
theorem c10_default_platform_witness :
    pyTruthyStr none = false ∧
    PlatformTypes.default none (some "ppc".toList) = .linux :=
  ⟨rfl, (c10_default_platform none (some "ppc".toList)).2 rfl⟩

/-! ### `makeprojects/core.py` (old-style module): file model and scanning -/

namespace Core

/-- `core.FileTypes` — the separate, older enumeration declared inside
`core.py` (note: no `c` member; `.c` files map to `cpp`). -/
inductive FileTypes where
  | user | generic | cpp | h | m | xml | rc | r
  | hlsl | glsl | x360sl | vitacg | frameworks | library | exe
  | xcconfig | x86 | a65 | image | ico | icns
  deriving DecidableEq, Repr

/-- `core.defaultcodeextensions` in source order. -/
def defaultcodeextensions : List (Str × FileTypes) :=
  [(".c".toList, .cpp), (".cc".toList, .cpp), (".cpp".toList, .cpp),
   (".c++".toList, .cpp),
   (".hpp".toList, .h), (".h".toList, .h), (".hh".toList, .h),
   (".i".toList, .h), (".inc".toList, .h),
   (".m".toList, .m), (".plist".toList, .xml),
   (".rc".toList, .rc), (".r".toList, .r), (".rsrc".toList, .r),
   (".hlsl".toList, .hlsl),
   (".vsh".toList, .glsl), (".fsh".toList, .glsl), (".glsl".toList, .glsl),
   (".x360sl".toList, .x360sl), (".vitacg".toList, .vitacg),
   (".xml".toList, .xml), (".a65".toList, .a65), (".x86".toList, .x86),
   (".ico".toList, .ico), (".icns".toList, .icns),
   (".png".toList, .image), (".jpg".toList, .image), (".bmp".toList, .image)]

/-- `core.SourceFile`: one input file of a solution. -/
structure SourceFile where
  /-- File name relative to the root, stored with windows-style slashes. -/
  filename : Str
  /-- Directory the file is found in (full path). -/
  directory : Str
  /-- File type enumeration. -/
  ftype : FileTypes
  deriving DecidableEq, Repr

/-- `core.SourceFile.__init__`: converts the relative path to windows
slashes on creation. -/
def SourceFile.init (filename directory : Str) (ftype : FileTypes) :
    SourceFile :=
  ⟨PyStr.winslash filename, directory, ftype⟩

end Core

namespace PyStr

/-- The prefix of `s` before the last occurrence of `ch`
(`s[0:s.rfind(ch)]`), or `none` when `ch` does not occur
(`rfind` returns -1). -/
def takeBeforeLast (ch : Char) (s : Str) : Option Str :=
  match s.reverse.dropWhile (· ≠ ch) with
  | [] => none
  | _ :: revPre => some revPre.reverse

/-- `while newname.startswith('..' + slash): newname = newname[3:]`. -/
def stripDotDot (slash : Char) : Str → Str
  | '.' :: '.' :: c :: rest =>
    if c = slash then stripDotDot slash rest else '.' :: '.' :: c :: rest
  | s => s

/-- `while newname.startswith('.' + slash): newname = newname[2:]`. -/
def stripDotSlashWhile (slash : Char) : Str → Str
  | '.' :: c :: rest =>
    if c = slash then stripDotSlashWhile slash rest else '.' :: c :: rest
  | s => s

/-- `if newname.startswith('.' + slash): newname = newname[2:]`
(the old `core.py` strips a single `.\` prefix only). -/
def stripDotSlashOnce (slash : Char) (s : Str) : Str :=
  if startswith s ['.', slash] then s.drop 2 else s

end PyStr

/-- `core.SourceFile.extractgroupname` (the old `core.py` version:
only `\` is considered, `..\` prefixes are stripped in a loop, a `.\`
prefix is stripped once). -/
def Core.SourceFile.extractgroupname (self : Core.SourceFile) : Str :=
  match PyStr.takeBeforeLast '\\' self.filename with
  | none => []
  | some newname =>
    PyStr.stripDotSlashOnce '\\' (PyStr.stripDotDot '\\' newname)

namespace Pkg

/-- `makeprojects.SourceFile` (the `__init__.py` version; the file type
is the modern `enums.FileTypes`). -/
structure SourceFile where
  /-- File name relative to the root, stored with windows-style slashes. -/
  filename : Str
  /-- Directory the file is found in (full path). -/
  directory : Str
  /-- File type enumeration. -/
  ftype : FileTypes
  deriving DecidableEq, Repr

/-- `makeprojects.SourceFile.__init__`. -/
def SourceFile.init (relativepathname directory : Str) (ftype : FileTypes) :
    SourceFile :=
  ⟨PyStr.winslash relativepathname, directory, ftype⟩

/-- `makeprojects.SourceFile.extractgroupname` (the `__init__.py`
version: tries `\` then `/` as the separator, strips `..\` prefixes in a
loop, then `.\` prefixes in a loop). -/
def SourceFile.extractgroupname (self : SourceFile) : Str :=
  match PyStr.takeBeforeLast '\\' self.filename with
  | some newname =>
    PyStr.stripDotSlashWhile '\\' (PyStr.stripDotDot '\\' newname)
  | none =>
    match PyStr.takeBeforeLast '/' self.filename with
    | some newname =>
      PyStr.stripDotSlashWhile '/' (PyStr.stripDotDot '/' newname)
    | none => []

end Pkg

/-! ### Claim C4: group-name derivation -/

namespace PyStr

theorem winslash_no_slash {s : Str} (h : '/' ∉ s) : winslash s = s := by
  induction s with
  | nil => rfl
  | cons c cs ih =>
    have hc : c ≠ '/' := fun hc => h (hc ▸ List.mem_cons_self c cs)
    have hcs : '/' ∉ cs := fun hm => h (List.mem_cons_of_mem c hm)
    have h2 := ih hcs
    simp only [winslash] at h2 ⊢
    simp [hc, h2]

theorem takeBeforeLast_eq_none {ch : Char} {s : Str} (h : ch ∉ s) :
    takeBeforeLast ch s = none := by
  unfold takeBeforeLast
  have : s.reverse.dropWhile (· ≠ ch) = [] := by
    rw [List.dropWhile_eq_nil_iff]
    intro x hx
    simp only [ne_eq, decide_eq_true_eq]
    exact fun he => h (he ▸ List.mem_reverse.mp hx)
  rw [this]

end PyStr

/-- C4 counterexample: for the relative path `./x.cpp` the derived group
name is `'.'`, not the empty string the claim states (the basename strip
leaves `'.'`, which does not start with `'.\'`, so the prefix strip does
nothing).  Both the `__init__.py` and the old `core.py` versions agree. -/
theorem c4_groupname_counterexample :
    (Pkg.SourceFile.init "./x.cpp".toList "dir".toList .cpp).extractgroupname
      = ".".toList ∧
    (Core.SourceFile.init "./x.cpp".toList "dir".toList .cpp).extractgroupname
      = ".".toList ∧
    ".".toList ≠ ([] : Str) :=
  ⟨rfl, rfl, by decide⟩

/-- C4 (amended): `extractgroupname` returns the directory-only portion
of the windows-slash normalized relative path with leading `..\`
prefixes stripped and then leading `.\` prefixes stripped; in particular
`a/b/c.cpp ↦ a\b`, `../../y/z.h ↦ y`, a bare basename maps to the empty
string, and `./x.cpp ↦ .` (a single dot, not the empty string).  Both
the `__init__.py` version and the old `core.py` version satisfy this on
these inputs. -/
theorem c4_groupname_amended :
    (∀ d : Str, ∀ t : FileTypes,
      (Pkg.SourceFile.init "a/b/c.cpp".toList d t).extractgroupname
        = "a\\b".toList ∧
      (Pkg.SourceFile.init "./x.cpp".toList d t).extractgroupname
        = ".".toList ∧
      (Pkg.SourceFile.init "../../y/z.h".toList d t).extractgroupname
        = "y".toList) ∧
    (∀ d : Str, ∀ t : Core.FileTypes,
      (Core.SourceFile.init "a/b/c.cpp".toList d t).extractgroupname
        = "a\\b".toList ∧
      (Core.SourceFile.init "./x.cpp".toList d t).extractgroupname
        = ".".toList ∧
      (Core.SourceFile.init "../../y/z.h".toList d t).extractgroupname
        = "y".toList) ∧
    (∀ p d : Str, ∀ t : FileTypes, '/' ∉ p → '\\' ∉ p →
      (Pkg.SourceFile.init p d t).extractgroupname = []) ∧
    (∀ p d : Str, ∀ t : Core.FileTypes, '/' ∉ p → '\\' ∉ p →
      (Core.SourceFile.init p d t).extractgroupname = []) := by
  refine ⟨fun d t => ⟨rfl, rfl, rfl⟩, fun d t => ⟨rfl, rfl, rfl⟩, ?_, ?_⟩
  · intro p d t hs hb
    unfold Pkg.SourceFile.init Pkg.SourceFile.extractgroupname
    simp only [PyStr.winslash_no_slash hs]
    rw [PyStr.takeBeforeLast_eq_none hb, PyStr.takeBeforeLast_eq_none hs]
  · intro p d t hs hb
    unfold Core.SourceFile.init Core.SourceFile.extractgroupname
    simp only [PyStr.winslash_no_slash hs]
    rw [PyStr.takeBeforeLast_eq_none hb]

/-- Witness for `c4_groupname_amended` at the bare basename
`main.cpp`. -/
theorem c4_groupname_witness :
    ('/' ∉ "main.cpp".toList ∧ '\\' ∉ "main.cpp".toList) ∧
    (Pkg.SourceFile.init "main.cpp".toList "dir".toList .cpp).extractgroupname
      = [] :=
  ⟨by decide,
   c4_groupname_amended.2.2.1 "main.cpp".toList "dir".toList .cpp
     (by decide) (by decide)⟩

/-! ### `core.SolutionData.scandirectory` / `getfilelist`

The file system is modelled as a tree of named entries; `os.listdir`
order is the order of the entry list, so "permuting the OS-reported
directory-entry order" is the `EPerm` relation below.  The roots handed
to `scandirectory` by `getfilelist` are supplied by a `resolve` function
from the search-path string to a listing (`os.path.isdir` failing is
`resolve = none`). -/

/-- A directory listing: each entry is a plain file or a sub-directory
with its own listing, in OS-reported order. -/
inductive FSEntries where
  | nil : FSEntries
  | file (name : Str) (rest : FSEntries) : FSEntries
  | dir (name : Str) (sub : FSEntries) (rest : FSEntries) : FSEntries
  deriving DecidableEq, Repr

namespace Core

/-- The body of the `for baseName in nameList` loop of
`SolutionData.scandirectory`, over a listing.  `directory` is the
relative directory being scanned, `searchDir` the absolute one
(`os.path.join(workingDir, directory)`), `found` the per-invocation
flag that appends `directory` to `includedirectories` on the first file
found.  `os.sep` is `/` (POSIX scanning host). -/
def scanEntries (wd : Str) (excl : List Str) (accept : List FileTypes)
    (recurse : Bool) :
    Str → Str → FSEntries → List SourceFile → List Str → Bool →
    List SourceFile × List Str
  | _, _, .nil, codefiles, incdirs, _ => (codefiles, incdirs)
  | directory, searchDir, .file name rest, codefiles, incdirs, found =>
    let testName := PyStr.lower name
    if excl.any (fun it => testName == PyStr.lower it) then
      scanEntries wd excl accept recurse directory searchDir rest
        codefiles incdirs found
    else
      match defaultcodeextensions.find?
          (fun it => PyStr.endswith testName it.1) with
      | none =>
        scanEntries wd excl accept recurse directory searchDir rest
          codefiles incdirs found
      | some item =>
        if accept.contains item.2 then
          let newfilename :=
            if directory = ".".toList then name else directory ++ '/' :: name
          let entry := SourceFile.init newfilename searchDir item.2
          if found then
            scanEntries wd excl accept recurse directory searchDir rest
              (codefiles ++ [entry]) incdirs true
          else
            scanEntries wd excl accept recurse directory searchDir rest
              (codefiles ++ [entry]) (incdirs ++ [directory]) true
        else
          scanEntries wd excl accept recurse directory searchDir rest
            codefiles incdirs found
  | directory, searchDir, .dir name sub rest, codefiles, incdirs, found =>
    let testName := PyStr.lower name
    if excl.any (fun it => testName == PyStr.lower it) then
      scanEntries wd excl accept recurse directory searchDir rest
        codefiles incdirs found
    else if recurse then
      let newdir := directory ++ '/' :: name
      let state :=
        scanEntries wd excl accept recurse newdir (PyStr.pyJoin wd newdir) sub
          codefiles incdirs false
      scanEntries wd excl accept recurse directory searchDir rest
        state.1 state.2 found
    else
      scanEntries wd excl accept recurse directory searchDir rest
        codefiles incdirs found

/-- Whether a source-folder item requests recursion
(`item.endswith('/*.*')`). -/
def folderRecurse (item : Str) : Bool := PyStr.endswith item "/*.*".toList

/-- The directory of a source-folder item, with the trailing `/*.*`
removed when present. -/
def folderDir (item : Str) : Str :=
  if folderRecurse item then item.take (item.length - 4) else item

/-- The absolute search directory of a source-folder item
(`scandirectory`'s special case for `'.'`). -/
def folderSearchDir (wd item : Str) : Str :=
  if folderDir item = ".".toList then wd else PyStr.pyJoin wd (folderDir item)

/-- The `for item in self.sourcefolders` loop of
`SolutionData.getfilelist`: strip a trailing `/*.*` into the recursion
flag and call `scandirectory` (whose directory-existence test and
listing are `resolve`). -/
def scanFolders (wd : Str) (excl : List Str) (accept : List FileTypes)
    (resolve : Str → Option FSEntries) :
    List Str → List SourceFile → List Str → List SourceFile × List Str
  | [], codefiles, incdirs => (codefiles, incdirs)
  | item :: rest, codefiles, incdirs =>
    let state :=
      match resolve (folderSearchDir wd item) with
      | some entries =>
        scanEntries wd excl accept (folderRecurse item) (folderDir item)
          (folderSearchDir wd item) entries codefiles incdirs false
      | none => (codefiles, incdirs)
    scanFolders wd excl accept resolve rest state.1 state.2

/-- The ordering used by `sorted(codefiles, cmp=lambda x,y:
cmp(x.filename, y.filename))`. -/
def fileLe (x y : SourceFile) : Prop :=
  PyStr.strLe x.filename y.filename = true

instance : DecidableRel fileLe := fun x y => by
  unfold fileLe; infer_instance

instance : IsTotal SourceFile fileLe :=
  ⟨fun x y => PyStr.strLe_total x.filename y.filename⟩

instance : IsTrans SourceFile fileLe :=
  ⟨fun _ _ _ h1 h2 => PyStr.strLe_trans h1 h2⟩

/-- `core.SolutionData.getfilelist`: run the source-folder scans
starting from the manually added `self.codefiles`, then sort the result
by `filename` with Python's stable `sorted` (modelled by the stable
`List.insertionSort`). -/
def getfilelist (wd : Str) (sourcefolders exclude : List Str)
    (accept : List FileTypes) (resolve : Str → Option FSEntries)
    (codefiles0 : List SourceFile) : List SourceFile × List Str :=
  let state := scanFolders wd exclude accept resolve sourcefolders codefiles0 []
  (List.insertionSort fileLe state.1, state.2)

end Core

/-! ### Delta form of the scan and permutation of listings -/

namespace Core

/-- The files contributed by scanning a listing (the `codefiles` delta of
`scanEntries`, which does not depend on the threaded `found` flag). -/
def filesOf (wd : Str) (excl : List Str) (accept : List FileTypes)
    (recurse : Bool) : Str → Str → FSEntries → List SourceFile
  | _, _, .nil => []
  | directory, searchDir, .file name rest =>
    (let testName := PyStr.lower name
     if excl.any (fun it => testName == PyStr.lower it) then []
     else
       match defaultcodeextensions.find?
           (fun it => PyStr.endswith testName it.1) with
       | none => []
       | some item =>
         if accept.contains item.2 then
           let newfilename :=
             if directory = ".".toList then name else directory ++ '/' :: name
           [SourceFile.init newfilename searchDir item.2]
         else []) ++ filesOf wd excl accept recurse directory searchDir rest
  | directory, searchDir, .dir name sub rest =>
    (let testName := PyStr.lower name
     if excl.any (fun it => testName == PyStr.lower it) then []
     else if recurse then
       let newdir := directory ++ '/' :: name
       filesOf wd excl accept recurse newdir (PyStr.pyJoin wd newdir) sub
     else []) ++ filesOf wd excl accept recurse directory searchDir rest

end Core

namespace Core

theorem scanEntries_fst (wd : Str) (excl : List Str)
    (accept : List FileTypes) (recurse : Bool) :
    ∀ (e : FSEntries) (directory searchDir : Str)
      (codefiles : List SourceFile) (incdirs : List Str) (found : Bool),
      (scanEntries wd excl accept recurse directory searchDir e
        codefiles incdirs found).1 =
      codefiles ++ filesOf wd excl accept recurse directory searchDir e := by
  intro e
  induction e with
  | nil => intro d sd cf ids fnd; simp [scanEntries, filesOf]
  | file name rest ih =>
    intro d sd cf ids fnd
    simp only [scanEntries, filesOf]
    by_cases hx : (excl.any
        (fun it => PyStr.lower name == PyStr.lower it)) = true
    · simp [hx, ih]
    · simp only [hx, Bool.false_eq_true, if_false]
      cases hfind : defaultcodeextensions.find?
          (fun it => PyStr.endswith (PyStr.lower name) it.1) with
      | none => simp [ih]
      | some item =>
        by_cases hacc : item.2 ∈ accept
        · cases fnd <;> simp [hacc, ih]
        · simp [hacc, ih]
  | dir name sub rest ihsub ihrest =>
    intro d sd cf ids fnd
    simp only [scanEntries, filesOf]
    by_cases hx : (excl.any
        (fun it => PyStr.lower name == PyStr.lower it)) = true
    · simp [hx, ihrest]
    · simp only [hx, Bool.false_eq_true, if_false]
      by_cases hrec : recurse = true
      · simp only [if_pos hrec]
        rw [ihrest, ihsub, List.append_assoc]
      · simp only [if_neg hrec]
        simp [ihrest]

end Core

/-- Node-wise permutation of directory listings: the same file-system
contents with the OS-reported entry order arbitrarily permuted at every
level. -/
inductive EPerm : FSEntries → FSEntries → Prop where
  | nil : EPerm .nil .nil
  | file {r₁ r₂} (n : Str) : EPerm r₁ r₂ → EPerm (.file n r₁) (.file n r₂)
  | dir {s₁ s₂ r₁ r₂} (n : Str) :
      EPerm s₁ s₂ → EPerm r₁ r₂ → EPerm (.dir n s₁ r₁) (.dir n s₂ r₂)
  | swapFF (a b : Str) (r : FSEntries) :
      EPerm (.file a (.file b r)) (.file b (.file a r))
  | swapFD (a n : Str) (s r : FSEntries) :
      EPerm (.file a (.dir n s r)) (.dir n s (.file a r))
  | swapDF (n a : Str) (s r : FSEntries) :
      EPerm (.dir n s (.file a r)) (.file a (.dir n s r))
  | swapDD (n₁ n₂ : Str) (s₁ s₂ r : FSEntries) :
      EPerm (.dir n₁ s₁ (.dir n₂ s₂ r)) (.dir n₂ s₂ (.dir n₁ s₁ r))
  | trans {e₁ e₂ e₃} : EPerm e₁ e₂ → EPerm e₂ e₃ → EPerm e₁ e₃

theorem EPerm.refl : ∀ e : FSEntries, EPerm e e
  | .nil => .nil
  | .file n r => .file n (EPerm.refl r)
  | .dir n s r => .dir n (EPerm.refl s) (EPerm.refl r)

/-- Listings of two runs over the same file-system contents: the resolver
answers `none` identically and answers permuted listings otherwise. -/
def OptEPerm : Option FSEntries → Option FSEntries → Prop
  | none, none => True
  | some a, some b => EPerm a b
  | _, _ => False

namespace Core

theorem filesOf_perm (wd : Str) (excl : List Str) (accept : List FileTypes)
    (recurse : Bool) {e₁ e₂ : FSEntries} (h : EPerm e₁ e₂) :
    ∀ directory searchDir : Str,
      (filesOf wd excl accept recurse directory searchDir e₁).Perm
        (filesOf wd excl accept recurse directory searchDir e₂) := by
  induction h with
  | nil => intro d sd; exact List.Perm.refl _
  | file n _ ih =>
    intro d sd
    simp only [filesOf]
    exact List.Perm.append_left _ (ih d sd)
  | dir n hs _ ihs ihr =>
    intro d sd
    simp only [filesOf]
    exact List.Perm.append (by
      by_cases hx : (excl.any
          (fun it => PyStr.lower n == PyStr.lower it)) = true
      · simp [hx]
      · simp only [hx, Bool.false_eq_true, if_false]
        by_cases hrec : recurse = true
        · simp only [if_pos hrec]; exact ihs _ _
        · simp [hrec]) (ihr d sd)
  | swapFF a b r =>
    intro d sd
    simp only [filesOf]
    rw [← List.append_assoc, ← List.append_assoc]
    exact List.Perm.append_right _ (List.perm_append_comm)
  | swapFD a n s r =>
    intro d sd
    simp only [filesOf]
    rw [← List.append_assoc, ← List.append_assoc]
    exact List.Perm.append_right _ (List.perm_append_comm)
  | swapDF n a s r =>
    intro d sd
    simp only [filesOf]
    rw [← List.append_assoc, ← List.append_assoc]
    exact List.Perm.append_right _ (List.perm_append_comm)
  | swapDD n₁ n₂ s₁ s₂ r =>
    intro d sd
    simp only [filesOf]
    rw [← List.append_assoc, ← List.append_assoc]
    exact List.Perm.append_right _ (List.perm_append_comm)
  | trans _ _ ih₁ ih₂ =>
    intro d sd
    exact (ih₁ d sd).trans (ih₂ d sd)

/-- The files contributed by one source-folder item of `getfilelist`. -/
def folderFiles (wd : Str) (excl : List Str) (accept : List FileTypes)
    (resolve : Str → Option FSEntries) (item : Str) : List SourceFile :=
  match resolve (folderSearchDir wd item) with
  | some entries =>
    filesOf wd excl accept (folderRecurse item) (folderDir item)
      (folderSearchDir wd item) entries
  | none => []

theorem scanFolders_fst (wd : Str) (excl : List Str)
    (accept : List FileTypes) (resolve : Str → Option FSEntries) :
    ∀ (sfs : List Str) (codefiles : List SourceFile) (incdirs : List Str),
      (scanFolders wd excl accept resolve sfs codefiles incdirs).1 =
      codefiles ++ sfs.flatMap (folderFiles wd excl accept resolve) := by
  intro sfs
  induction sfs with
  | nil => intro cf ids; simp [scanFolders]
  | cons item rest ih =>
    intro cf ids
    simp only [scanFolders, folderFiles, List.flatMap_cons]
    cases hres : resolve (folderSearchDir wd item) with
    | none => simp [ih]
    | some entries =>
      rw [ih, scanEntries_fst, List.append_assoc]

end Core

/-! ### Canonical reconstruction of a scanned file from its key -/

namespace PyStr

/-- The predicate "is not a slash", used to split a path at its last
slash. -/
def notSlash (c : Char) : Bool := c ≠ '/'

theorem winslash_append (a b : Str) :
    winslash (a ++ b) = winslash a ++ winslash b :=
  List.map_append _ a b

theorem linslash_no_bs {s : Str} (h : '\\' ∉ s) : linslash s = s := by
  induction s with
  | nil => rfl
  | cons c cs ih =>
    have hc : c ≠ '\\' := fun hc => h (hc ▸ List.mem_cons_self c cs)
    have hcs : '\\' ∉ cs := fun hm => h (List.mem_cons_of_mem c hm)
    have h2 := ih hcs
    simp only [linslash] at h2 ⊢
    simp [hc, h2]

theorem linslash_winslash_no_bs {s : Str} (h : '\\' ∉ s) :
    linslash (winslash s) = s := by
  induction s with
  | nil => rfl
  | cons c cs ih =>
    have hc : c ≠ '\\' := fun hc => h (hc ▸ List.mem_cons_self c cs)
    have hcs : '\\' ∉ cs := fun hm => h (List.mem_cons_of_mem c hm)
    have h2 := ih hcs
    simp only [winslash, linslash] at h2 ⊢
    by_cases hs : c = '/'
    · subst hs; simp [h2]
    · simp [hs, hc, h2]

theorem takeWhile_append_slash {l r : Str} (h : '/' ∉ l) :
    (l ++ '/' :: r).takeWhile notSlash = l := by
  induction l with
  | nil => simp [notSlash]
  | cons c cs ih =>
    have hc : c ≠ '/' := fun hc => h (hc ▸ List.mem_cons_self c cs)
    have hcs : '/' ∉ cs := fun hm => h (List.mem_cons_of_mem c hm)
    simp only [List.cons_append, List.takeWhile_cons]
    have hp : notSlash c = true := by simp [notSlash, hc]
    rw [hp]
    simp [ih hcs]

theorem dropWhile_append_slash {l r : Str} (h : '/' ∉ l) :
    (l ++ '/' :: r).dropWhile notSlash = '/' :: r := by
  induction l with
  | nil => simp [notSlash]
  | cons c cs ih =>
    have hc : c ≠ '/' := fun hc => h (hc ▸ List.mem_cons_self c cs)
    have hcs : '/' ∉ cs := fun hm => h (List.mem_cons_of_mem c hm)
    simp only [List.cons_append, List.dropWhile_cons]
    have hp : notSlash c = true := by simp [notSlash, hc]
    rw [hp]
    simp [ih hcs]

end PyStr

namespace Core

/-- Base name of a slash-relative path (the part after the last `/`). -/
def baseOf (rel : Str) : Str := (rel.reverse.takeWhile PyStr.notSlash).reverse

/-- Directory part of a slash-relative path (the part before the last
`/`). -/
def dirOf (rel : Str) : Str :=
  ((rel.reverse.dropWhile PyStr.notSlash).drop 1).reverse

/-- The file type the scan assigns to a base name. -/
def typeOfName (name : Str) : FileTypes :=
  match defaultcodeextensions.find?
      (fun it => PyStr.endswith (PyStr.lower name) it.1) with
  | some item => item.2
  | none => .user

/-- Canonical reconstruction of a scanned `SourceFile` from its windows-
slashed relative path: over benign names, a scanned record is a function
of its key alone. -/
def canonOf (wd : Str) (key : Str) : SourceFile :=
  let rel := PyStr.linslash key
  if '/' ∈ rel then
    ⟨key, PyStr.pyJoin wd (dirOf rel), typeOfName (baseOf rel)⟩
  else
    ⟨key, wd, typeOfName rel⟩

/-- Benign file-system contents: no entry name contains a slash (true on
every OS) or a backslash (true on Windows; on POSIX a backslash is legal
in a name and is exactly what breaks the claim). -/
def goodTree : FSEntries → Prop
  | .nil => True
  | .file n r => ('/' ∉ n ∧ '\\' ∉ n) ∧ goodTree r
  | .dir n s r => ('/' ∉ n ∧ '\\' ∉ n) ∧ goodTree s ∧ goodTree r

theorem filesOf_canon (wd : Str) (excl : List Str)
    (accept : List FileTypes) (recurse : Bool) :
    ∀ (e : FSEntries) (d sd : Str), '\\' ∉ d →
      (d = ".".toList → sd = wd) →
      (d ≠ ".".toList → sd = PyStr.pyJoin wd d) →
      goodTree e →
      ∀ x ∈ filesOf wd excl accept recurse d sd e,
        x = canonOf wd x.filename := by
  intro e
  induction e with
  | nil => intro d sd _ _ _ _ x hx; simp [filesOf] at hx
  | file name rest ih =>
    intro d sd hd hdot hnodot hg x hx
    obtain ⟨⟨hns, hnb⟩, hgrest⟩ := hg
    simp only [filesOf, List.mem_append] at hx
    rcases hx with hx | hx
    · -- x is the head entry (if one was added)
      by_cases hex : (excl.any
          (fun it => PyStr.lower name == PyStr.lower it)) = true
      · simp [hex] at hx
      · simp only [hex, Bool.false_eq_true, if_false] at hx
        revert hx
        cases hfind : defaultcodeextensions.find?
            (fun it => PyStr.endswith (PyStr.lower name) it.1) with
        | none => intro hx; simp at hx
        | some item =>
          intro hx
          by_cases hacc : accept.contains item.2 = true
          · simp only [hacc, if_true, List.mem_singleton] at hx
            subst hx
            by_cases hdeq : d = ".".toList
            · -- root folder: the relative path is the bare name
              subst hdeq
              have hsd : sd = wd := hdot rfl
              have hw : PyStr.winslash name = name :=
                PyStr.winslash_no_slash hns
              have hl : PyStr.linslash name = name :=
                PyStr.linslash_no_bs hnb
              simp [SourceFile.init, canonOf, hw, hl, hns, hsd,
                typeOfName, hfind]
            · have hsd : sd = PyStr.pyJoin wd d := hnodot hdeq
              have hnsrev : '/' ∉ name.reverse :=
                fun hm => hns (List.mem_reverse.mp hm)
              have hnb' : '\\' ∉ (d ++ '/' :: name) := by
                intro hm
                rcases List.mem_append.mp hm with hm | hm
                · exact hd hm
                · rcases List.mem_cons.mp hm with hm | hm
                  · exact absurd hm.symm (by decide)
                  · exact hnb hm
              have hrel : PyStr.linslash (PyStr.winslash (d ++ '/' :: name))
                  = d ++ '/' :: name := PyStr.linslash_winslash_no_bs hnb'
              have hmem : '/' ∈ d ++ '/' :: name :=
                List.mem_append.mpr (Or.inr (List.mem_cons_self _ _))
              have hrev : (d ++ '/' :: name).reverse
                  = name.reverse ++ '/' :: d.reverse := by
                simp
              have hbase : baseOf (d ++ '/' :: name) = name := by
                unfold baseOf
                rw [hrev, PyStr.takeWhile_append_slash hnsrev,
                  List.reverse_reverse]
              have hdir : dirOf (d ++ '/' :: name) = d := by
                unfold dirOf
                rw [hrev, PyStr.dropWhile_append_slash hnsrev]
                simp
              simp only [SourceFile.init, if_neg hdeq, canonOf, hrel,
                if_pos hmem, hbase, hdir, hsd]
              unfold typeOfName
              rw [hfind]
          · simp only [hacc, Bool.false_eq_true, if_false] at hx
            simp at hx
    · exact ih d sd hd hdot hnodot hgrest x hx
  | dir name sub rest ihsub ihrest =>
    intro d sd hd hdot hnodot hg x hx
    obtain ⟨⟨hns, hnb⟩, hgsub, hgrest⟩ := hg
    simp only [filesOf, List.mem_append] at hx
    rcases hx with hx | hx
    · by_cases hex : (excl.any
          (fun it => PyStr.lower name == PyStr.lower it)) = true
      · simp [hex] at hx
      · simp only [hex, Bool.false_eq_true, if_false] at hx
        by_cases hrec : recurse = true
        · simp only [if_pos hrec] at hx
          refine ihsub (d ++ '/' :: name) _ ?_ ?_ ?_ hgsub x hx
          · intro hm
            rcases List.mem_append.mp hm with hm | hm
            · exact hd hm
            · rcases List.mem_cons.mp hm with hm | hm
              · exact absurd hm.symm (by decide)
              · exact hnb hm
          · intro he
            have hmem : '/' ∈ d ++ '/' :: name :=
              List.mem_append.mpr (Or.inr (List.mem_cons_self _ _))
            rw [he] at hmem
            exact absurd hmem (by decide)
          · intro _; rfl
        · simp [hrec] at hx
    · exact ihrest d sd hd hdot hnodot hgrest x hx

end Core

namespace PyStr

theorem strLe_refl (s : Str) : strLe s s = true := by
  induction s with
  | nil => rfl
  | cons c cs ih => simp [strLe, ih]

end PyStr

namespace Core

/-- Two sorted permutations of each other are equal when the sort key
(the filename) determines the whole record, which `canonOf` provides. -/
theorem sorted_perm_canon_eq (wd : Str) :
    ∀ {l₁ l₂ : List SourceFile}, l₁.Perm l₂ →
      l₁.Sorted fileLe → l₂.Sorted fileLe →
      (∀ x ∈ l₁, x = canonOf wd x.filename) → l₁ = l₂ := by
  intro l₁
  induction l₁ with
  | nil =>
    intro l₂ hp _ _ _
    exact (hp.symm.eq_nil).symm
  | cons a t₁ ih =>
    intro l₂ hp hs₁ hs₂ hcanon
    cases l₂ with
    | nil => exact absurd hp.eq_nil (by simp)
    | cons b t₂ =>
      have hab : a = b := by
        have ha2 : a ∈ b :: t₂ := hp.mem_iff.mp (List.mem_cons_self a t₁)
        have hb1 : b ∈ a :: t₁ := hp.symm.mem_iff.mp (List.mem_cons_self b t₂)
        have hba : fileLe b a := by
          rcases List.mem_cons.mp ha2 with h | h
          · subst h; exact PyStr.strLe_refl _
          · exact List.rel_of_sorted_cons hs₂ a h
        have hab : fileLe a b := by
          rcases List.mem_cons.mp hb1 with h | h
          · subst h; exact PyStr.strLe_refl _
          · exact List.rel_of_sorted_cons hs₁ b h
        have hkey : a.filename = b.filename := PyStr.strLe_antisymm hab hba
        calc a = canonOf wd a.filename := hcanon a (List.mem_cons_self a t₁)
          _ = canonOf wd b.filename := by rw [hkey]
          _ = b := (hcanon b hb1).symm
      subst hab
      have hp' : t₁.Perm t₂ := hp.cons_inv
      have := ih hp' hs₁.of_cons hs₂.of_cons
        (fun x hx => hcanon x (List.mem_cons_of_mem a hx))
      rw [this]

end Core

/-! ### Claims C6 and C7: file-list resolution -/

/-- From the spec's words (for comparison only): "a sorted
(case-insensitive, lexicographic by normalized path) list" — adjacent
entries compare `<=` on the lowercased filename. -/
def ciSorted : List Core.SourceFile → Bool
  | [] => true
  | [_] => true
  | x :: y :: rest =>
    PyStr.strLe (PyStr.lower x.filename) (PyStr.lower y.filename) &&
      ciSorted (y :: rest)

/-- Counterexample file system for C6: one directory holding `B.cpp` and
`a.cpp`. -/
def c6Listing : FSEntries := .file "B.cpp".toList (.file "a.cpp".toList .nil)

/-- Counterexample resolver for C6 (working directory `wd`). -/
def c6Resolve : Str → Option FSEntries :=
  fun p => if p = "wd".toList then some c6Listing else none

/-- C6 counterexample: `getfilelist` sorts with the case-sensitive
Python 2 `cmp`, so `B.cpp` (code point 66) precedes `a.cpp` (code point
97) — the output is not case-insensitively sorted; and with the same
source folder listed twice the second component contains `'.'` twice, so
it is not a distinct set of directories either. -/
theorem c6_filelist_counterexample :
    ((Core.getfilelist "wd".toList [".".toList, ".".toList] []
        [.cpp] c6Resolve []).1.map (·.filename) =
      ["B.cpp".toList, "B.cpp".toList, "a.cpp".toList, "a.cpp".toList]) ∧
    ciSorted (Core.getfilelist "wd".toList [".".toList, ".".toList] []
        [.cpp] c6Resolve []).1 = false ∧
    (Core.getfilelist "wd".toList [".".toList, ".".toList] []
        [.cpp] c6Resolve []).2 = [".".toList, ".".toList] ∧
    ¬ (Core.getfilelist "wd".toList [".".toList, ".".toList] []
        [.cpp] c6Resolve []).2.Nodup :=
  ⟨rfl, rfl, rfl, by decide⟩

/-- C6 (amended): `getfilelist` returns the scanned `SourceFile` entries
sorted **case-sensitively** (byte-wise lexicographic `cmp` on the
windows-slash normalized relative path) — a permutation of the initial
entries plus every source folder's scan results — together with the list
of directories that contributed at least one file during a scan visit
(one entry per visit; repetitions occur when source folders overlap). -/
theorem c6_filelist_amended :
    ∀ (wd : Str) (sfs excl : List Str) (accept : List Core.FileTypes)
      (resolve : Str → Option FSEntries)
      (codefiles0 : List Core.SourceFile),
      (Core.getfilelist wd sfs excl accept resolve codefiles0).1.Sorted
        Core.fileLe ∧
      (Core.getfilelist wd sfs excl accept resolve codefiles0).1.Perm
        (codefiles0 ++
          sfs.flatMap (Core.folderFiles wd excl accept resolve)) ∧
      (Core.getfilelist wd sfs excl accept resolve codefiles0).2 =
        (Core.scanFolders wd excl accept resolve sfs codefiles0 []).2 := by
  intro wd sfs excl accept resolve codefiles0
  refine ⟨List.sorted_insertionSort _ _, ?_, rfl⟩
  have h := Core.scanFolders_fst wd excl accept resolve sfs codefiles0 []
  exact (List.perm_insertionSort _ _).trans (h ▸ List.Perm.refl _)

namespace Core

theorem flatMap_perm_of_forall {α : Type} {f g : α → List SourceFile} :
    ∀ (l : List α), (∀ a ∈ l, (f a).Perm (g a)) →
      (l.flatMap f).Perm (l.flatMap g) := by
  intro l
  induction l with
  | nil => intro _; exact List.Perm.refl _
  | cons a t ih =>
    intro h
    simp only [List.flatMap_cons]
    exact List.Perm.append (h a (List.mem_cons_self a t))
      (ih fun b hb => h b (List.mem_cons_of_mem a hb))

theorem folderFiles_perm {wd : Str} {excl : List Str}
    {accept : List FileTypes} {r1 r2 : Str → Option FSEntries}
    (hp : ∀ p, OptEPerm (r1 p) (r2 p)) (item : Str) :
    (folderFiles wd excl accept r1 item).Perm
      (folderFiles wd excl accept r2 item) := by
  unfold folderFiles
  have hthis := hp (folderSearchDir wd item)
  cases h1 : r1 (folderSearchDir wd item) with
  | none =>
    cases h2 : r2 (folderSearchDir wd item) with
    | none => exact List.Perm.refl _
    | some e2 =>
      rw [h1, h2] at hthis
      exact absurd hthis (by simp [OptEPerm])
  | some e1 =>
    cases h2 : r2 (folderSearchDir wd item) with
    | none =>
      rw [h1, h2] at hthis
      exact absurd hthis (by simp [OptEPerm])
    | some e2 =>
      rw [h1, h2] at hthis
      exact filesOf_perm wd excl accept _ hthis _ _

theorem folderFiles_canon {wd : Str} {excl : List Str}
    {accept : List FileTypes} {r : Str → Option FSEntries}
    (hgood : ∀ p e, r p = some e → goodTree e) {item : Str}
    (hbs : '\\' ∉ item) :
    ∀ x ∈ folderFiles wd excl accept r item, x = canonOf wd x.filename := by
  intro x hx
  unfold folderFiles at hx
  have hbs' : '\\' ∉ folderDir item := by
    unfold folderDir
    by_cases h : folderRecurse item = true
    · simp only [h, if_true]
      exact fun hm => hbs (List.take_subset _ _ hm)
    · simp only [h, Bool.false_eq_true, if_false]
      exact hbs
  revert hx
  cases hres : r (folderSearchDir wd item) with
  | none => intro hx; simp at hx
  | some entries =>
    intro hx
    refine filesOf_canon wd excl accept _ entries _ _ hbs' ?_ ?_
      (hgood _ _ hres) x hx
    · intro h; unfold folderSearchDir; rw [if_pos h]
    · intro h; unfold folderSearchDir; rw [if_neg h]

end Core

/-- C7 (amended): over benign file systems — no directory-entry name
contains `/` or `\`, and no source-folder string contains `\` — two runs
of `getfilelist` over the same contents whose OS-reported listing orders
are arbitrary node-wise permutations of each other produce the identical
ordered `SourceFile` list.  (The initial manually-added entries, shared
by both runs, must themselves be reconstructible from their keys, which
holds vacuously for the default empty list.) -/
theorem c7_determinism_amended :
    ∀ (wd : Str) (sfs excl : List Str) (accept : List Core.FileTypes)
      (r1 r2 : Str → Option FSEntries)
      (codefiles0 : List Core.SourceFile),
      (∀ p, OptEPerm (r1 p) (r2 p)) →
      (∀ p e, r1 p = some e → Core.goodTree e) →
      (∀ p e, r2 p = some e → Core.goodTree e) →
      (∀ sf ∈ sfs, '\\' ∉ sf) →
      (∀ x ∈ codefiles0, x = Core.canonOf wd x.filename) →
      (Core.getfilelist wd sfs excl accept r1 codefiles0).1 =
      (Core.getfilelist wd sfs excl accept r2 codefiles0).1 := by
  intro wd sfs excl accept r1 r2 codefiles0 hperm hg1 hg2 hsfs hinit
  have h1 := Core.scanFolders_fst wd excl accept r1 sfs codefiles0 []
  have h2 := Core.scanFolders_fst wd excl accept r2 sfs codefiles0 []
  have hLperm : (codefiles0 ++
      sfs.flatMap (Core.folderFiles wd excl accept r1)).Perm
      (codefiles0 ++ sfs.flatMap (Core.folderFiles wd excl accept r2)) :=
    List.Perm.append_left _
      (Core.flatMap_perm_of_forall sfs
        (fun sf _ => Core.folderFiles_perm hperm sf))
  have hcanon : ∀ x ∈ codefiles0 ++
      sfs.flatMap (Core.folderFiles wd excl accept r1),
      x = Core.canonOf wd x.filename := by
    intro x hx
    rcases List.mem_append.mp hx with hx | hx
    · exact hinit x hx
    · obtain ⟨sf, hsf, hxin⟩ := List.mem_flatMap.mp hx
      exact Core.folderFiles_canon hg1 (hsfs sf hsf) x hxin
  show (List.insertionSort Core.fileLe
      (Core.scanFolders wd excl accept r1 sfs codefiles0 []).1) =
    (List.insertionSort Core.fileLe
      (Core.scanFolders wd excl accept r2 sfs codefiles0 []).1)
  rw [h1, h2]
  refine Core.sorted_perm_canon_eq wd ?_ (List.sorted_insertionSort _ _)
    (List.sorted_insertionSort _ _) ?_
  · exact (List.perm_insertionSort _ _).trans
      (hLperm.trans (List.perm_insertionSort _ _).symm)
  · intro x hx
    exact hcanon x ((List.perm_insertionSort _ _).mem_iff.mp hx)

/-- C7 counterexample contents, first iteration order: a directory `a`
containing directory `b` with `f.c`, and a sibling directory whose name
is `a\b` (a backslash is a legal name character on POSIX) containing
`f.c`.  Both files normalize to the windows-slashed relative path
`.\a\b\f.c` but have different absolute directories. -/
def c7cT1 : FSEntries :=
  .dir "a".toList (.dir "b".toList (.file "f.c".toList .nil) .nil)
    (.dir "a\\b".toList (.file "f.c".toList .nil) .nil)

/-- The same contents with the two top-level entries swapped. -/
def c7cT2 : FSEntries :=
  .dir "a\\b".toList (.file "f.c".toList .nil)
    (.dir "a".toList (.dir "b".toList (.file "f.c".toList .nil) .nil) .nil)

/-- Resolver of the first C7 counterexample run. -/
def c7cR1 : Str → Option FSEntries :=
  fun p => if p = "wd".toList then some c7cT1 else none

/-- Resolver of the second C7 counterexample run. -/
def c7cR2 : Str → Option FSEntries :=
  fun p => if p = "wd".toList then some c7cT2 else none

/-- C7 counterexample: the two runs scan the same file-system contents
with permuted directory-entry order, yet `getfilelist` returns different
ordered `SourceFile` lists — the two scanned files tie on the sort key
`.\a\b\f.c`, Python's stable sort keeps encounter order, and their
`directory` fields differ. -/
theorem c7_determinism_counterexample :
    (∀ p, OptEPerm (c7cR1 p) (c7cR2 p)) ∧
    (Core.getfilelist "wd".toList ["./*.*".toList] [] [.cpp] c7cR1 []).1 ≠
    (Core.getfilelist "wd".toList ["./*.*".toList] [] [.cpp] c7cR2 []).1 := by
  constructor
  · intro p
    unfold c7cR1 c7cR2
    by_cases h : p = "wd".toList
    · rw [if_pos h, if_pos h]
      show EPerm c7cT1 c7cT2
      exact EPerm.swapDD _ _ _ _ _
    · rw [if_neg h, if_neg h]
      trivial
  · decide

/-- Witness file-system listing for `c7_determinism_amended`, first
order. -/
def c7wT1 : FSEntries := .file "a.c".toList (.file "b.c".toList .nil)

/-- Witness listing, permuted order. -/
def c7wT2 : FSEntries := .file "b.c".toList (.file "a.c".toList .nil)

/-- Witness resolver, first order. -/
def c7wR1 : Str → Option FSEntries :=
  fun p => if p = "wd".toList then some c7wT1 else none

/-- Witness resolver, permuted order. -/
def c7wR2 : Str → Option FSEntries :=
  fun p => if p = "wd".toList then some c7wT2 else none

/-- Witness for `c7_determinism_amended`: over a benign two-file
directory scanned in both orders, the outputs coincide. -/
theorem c7_determinism_witness :
    (∀ p, OptEPerm (c7wR1 p) (c7wR2 p)) ∧
    (∀ sf ∈ [".".toList], '\\' ∉ sf) ∧
    (Core.getfilelist "wd".toList [".".toList] [] [.cpp] c7wR1 []).1 =
    (Core.getfilelist "wd".toList [".".toList] [] [.cpp] c7wR2 []).1 := by
  have hp : ∀ p, OptEPerm (c7wR1 p) (c7wR2 p) := by
    intro p
    unfold c7wR1 c7wR2
    by_cases h : p = "wd".toList
    · rw [if_pos h, if_pos h]
      show EPerm c7wT1 c7wT2
      exact EPerm.swapFF _ _ _
    · rw [if_neg h, if_neg h]
      trivial
  refine ⟨hp, by decide, ?_⟩
  refine c7_determinism_amended "wd".toList [".".toList] [] [.cpp]
    c7wR1 c7wR2 [] hp ?_ ?_ (by decide)
    (fun x hx => absurd hx (List.not_mem_nil x))
  · intro p e he
    unfold c7wR1 at he
    by_cases h : p = "wd".toList
    · rw [if_pos h] at he
      cases he
      exact ⟨⟨by decide, by decide⟩, ⟨by decide, by decide⟩, trivial⟩
    · rw [if_neg h] at he
      cases he
  · intro p e he
    unfold c7wR2 at he
    by_cases h : p = "wd".toList
    · rw [if_pos h] at he
      cases he
      exact ⟨⟨by decide, by decide⟩, ⟨by decide, by decide⟩, trivial⟩
    · rw [if_neg h] at he
      cases he

/-! ### The new-style `core.Solution` model (spec-modelled) and C1 -/

/-- The first-seen-order deduplication idiom used throughout the source
(`if item not in result: result.append(item)`), with the accumulated
result threaded as `seen`. -/
def dedupFirstAux {α : Type} [DecidableEq α] (seen : List α) :
    List α → List α
  | [] => []
  | x :: rest =>
    if x ∈ seen then dedupFirstAux seen rest
    else x :: dedupFirstAux (seen ++ [x]) rest

/-- Remove duplicates keeping the first occurrence of each element. -/
def dedupFirst {α : Type} [DecidableEq α] (l : List α) : List α :=
  dedupFirstAux [] l

theorem dedupFirstAux_mem {α : Type} [DecidableEq α] :
    ∀ (l : List α) (seen : List α) (x : α),
      x ∈ dedupFirstAux seen l ↔ x ∈ l ∧ x ∉ seen := by
  intro l
  induction l with
  | nil => intro seen x; simp [dedupFirstAux]
  | cons a rest ih =>
    intro seen x
    simp only [dedupFirstAux]
    by_cases ha : a ∈ seen
    · rw [if_pos ha, ih]
      constructor
      · rintro ⟨h1, h2⟩
        exact ⟨List.mem_cons_of_mem a h1, h2⟩
      · rintro ⟨h1, h2⟩
        rcases List.mem_cons.mp h1 with h1 | h1
        · exact absurd (h1 ▸ ha) h2
        · exact ⟨h1, h2⟩
    · rw [if_neg ha]
      simp only [List.mem_cons, ih, List.mem_append, List.mem_singleton]
      constructor
      · rintro (h | ⟨h1, h2⟩)
        · subst h; exact ⟨Or.inl rfl, ha⟩
        · exact ⟨Or.inr h1, fun hs => h2 (Or.inl hs)⟩
      · rintro ⟨h1 | h1, h2⟩
        · exact Or.inl h1
        · by_cases hxa : x = a
          · exact Or.inl hxa
          · exact Or.inr ⟨h1, fun hs =>
              (by rcases hs with hs | hs | hs
                  · exact h2 hs
                  · exact hxa hs
                  · exact absurd hs (List.not_mem_nil x))⟩

theorem dedupFirstAux_nodup {α : Type} [DecidableEq α] :
    ∀ (l : List α) (seen : List α), (dedupFirstAux seen l).Nodup := by
  intro l
  induction l with
  | nil => intro seen; simp [dedupFirstAux]
  | cons a rest ih =>
    intro seen
    simp only [dedupFirstAux]
    by_cases ha : a ∈ seen
    · rw [if_pos ha]; exact ih seen
    · rw [if_neg ha]
      refine List.nodup_cons.mpr ⟨?_, ih (seen ++ [a])⟩
      intro hmem
      have := (dedupFirstAux_mem rest (seen ++ [a]) a).mp hmem
      exact this.2 (List.mem_append.mpr (Or.inr (List.mem_singleton.mpr rfl)))

theorem dedupFirstAux_sublist {α : Type} [DecidableEq α] :
    ∀ (l : List α) (seen : List α), (dedupFirstAux seen l).Sublist l := by
  intro l
  induction l with
  | nil => intro seen; simp [dedupFirstAux]
  | cons a rest ih =>
    intro seen
    simp only [dedupFirstAux]
    by_cases ha : a ∈ seen
    · rw [if_pos ha]; exact (ih seen).cons a
    · rw [if_neg ha]; exact (ih (seen ++ [a])).cons₂ a

/-- Modelled from the spec: the new-style `core.Configuration` (not
shipped under `src/`; `watcom.py`, `codewarrior.py` and `build_rules.py`
call into it).  One named build variant with a non-owning back-reference
to its project, modelled here by carrying the owning project's aggregate
attribute values alongside the configuration's own.  §4.2: an attribute
read falls back from the configuration to the owning project; list
attributes concatenate and, for "unique-chained" reads, drop duplicates
first-seen-first-kept. -/
structure Configuration where
  name : Str
  short_code : Str
  platform : PlatformTypes
  project_type : ProjectTypes
  debug : Bool
  deploy_folder : Option Str
  /-- Configuration-level list attributes, by attribute name
  (absent = empty list). -/
  attrs : Str → List Str
  /-- The owning project's aggregate list attributes (the non-owning
  back-reference of the chain). -/
  project_attrs : Str → List Str
  /-- Configuration-level scalar attributes (absent = `None`). -/
  scalar_attrs : Str → Option Str
  /-- The owning project's scalar attributes. -/
  project_scalar_attrs : Str → Option Str

/-- Modelled from the spec (§4.2): read the configuration's own value;
if unset, read the owning project's value; absence yields `None`. -/
def Configuration.get_chained_value (c : Configuration) (attr : Str) :
    Option Str :=
  match c.scalar_attrs attr with
  | some v => some v
  | none => c.project_scalar_attrs attr

/-- Modelled from the spec (§4.2): the concatenation of the list values
along the configuration-to-project chain. -/
def Configuration.get_chained_list (c : Configuration) (attr : Str) :
    List Str :=
  c.attrs attr ++ c.project_attrs attr

/-- Modelled from the spec (§4.2): the chained concatenation with
duplicates removed, first-seen order preserved. -/
def Configuration.get_unique_chained_list (c : Configuration)
    (attr : Str) : List Str :=
  dedupFirst (c.attrs attr ++ c.project_attrs attr)

/-- C1: chained attribute resolution.  `get_chained_value` returns the
configuration's own value when set, otherwise the owning project's
value, otherwise `None`; and `get_unique_chained_list` returns the
chained concatenation with duplicates removed (the result has no
duplicates, is a subsequence of the concatenation — hence keeps the
surviving occurrences in first-seen order — and keeps exactly the
elements of the concatenation). -/
theorem c1_chained_resolution :
    ∀ (c : Configuration) (attr : Str),
      (∀ v, c.scalar_attrs attr = some v →
        c.get_chained_value attr = some v) ∧
      (c.scalar_attrs attr = none →
        c.get_chained_value attr = c.project_scalar_attrs attr) ∧
      (c.get_unique_chained_list attr).Nodup ∧
      (c.get_unique_chained_list attr).Sublist
        (c.attrs attr ++ c.project_attrs attr) ∧
      (∀ x, x ∈ c.get_unique_chained_list attr ↔
        x ∈ c.attrs attr ++ c.project_attrs attr) := by
  intro c attr
  refine ⟨?_, ?_, ?_, ?_, ?_⟩
  · intro v hv
    unfold Configuration.get_chained_value
    rw [hv]
  · intro hv
    unfold Configuration.get_chained_value
    rw [hv]
  · exact dedupFirstAux_nodup _ []
  · exact dedupFirstAux_sublist _ []
  · intro x
    unfold Configuration.get_unique_chained_list dedupFirst
    rw [dedupFirstAux_mem]
    simp

/-- Witness for `c1_chained_resolution`: a configuration whose own
`define_list` is unset falls back to the project's, and a chained list
with an overlap deduplicates in first-seen order. -/
theorem c1_chained_resolution_witness :
    (Configuration.mk "Debug".toList "dbg".toList .win32 .tool true none
        (fun _ => ["a".toList, "b".toList])
        (fun _ => ["b".toList, "c".toList])
        (fun _ => none)
        (fun _ => some "proj".toList)).scalar_attrs "profile".toList
      = none ∧
    (Configuration.mk "Debug".toList "dbg".toList .win32 .tool true none
        (fun _ => ["a".toList, "b".toList])
        (fun _ => ["b".toList, "c".toList])
        (fun _ => none)
        (fun _ => some "proj".toList)).get_chained_value "profile".toList
      = some "proj".toList := by
  constructor
  · rfl
  · have h := ((c1_chained_resolution
      (Configuration.mk "Debug".toList "dbg".toList .win32 .tool true none
        (fun _ => ["a".toList, "b".toList])
        (fun _ => ["b".toList, "c".toList])
        (fun _ => none)
        (fun _ => some "proj".toList)) "profile".toList).2.1) rfl
    exact h

/-! ### Solution/Project records and the Watcom emitter -/

/-- Modelled from the spec: a resolved source file of the new-style
`core.Project` (`relative_pathname` plus its `FileTypes`
classification), as consumed by the emitters. -/
structure CodeFile where
  relative_pathname : Str
  ftype : FileTypes
  deriving DecidableEq, Repr

/-- Modelled from the spec: the new-style `core.Project` (not shipped
under `src/`): a named buildable target owning configurations and a
resolved source-file list.  `get_file_list` (§4.3) is represented by the
already-resolved `codefiles`. -/
structure Project where
  name : Str
  configuration_list : List Configuration
  codefiles : List CodeFile
  platform : Option PlatformTypes := none

/-- Modelled from the spec: the new-style `core.Solution` (not shipped
under `src/`): the top-level container the emitters consume. -/
structure Solution where
  name : Str
  ide : IDETypes
  ide_code : Str
  platform_code : Str
  working_directory : Str
  perforce : Bool
  verbose : Bool
  project_list : List Project

/-- A platform's short code as the emitters use it (the emitters index
the table directly; every platform they meet has a code). -/
def shortCode (p : PlatformTypes) : Str := (p.get_short_code).getD []

/-- Python `s[-3:]`. -/
def last3 (s : Str) : Str := s.drop (s.length - 3)

/-- `burger.encapsulate_path_linux`: quote a path for make/linux shells
when it needs quoting (a space). -/
def encapsulate_path_linux (s : Str) : Str :=
  if ' ' ∈ s then '"' :: (s ++ ['"']) else s

/-- Plain string ordering as a relation, for Python's `sorted` on
strings. -/
def strRel (a b : Str) : Prop := PyStr.strLe a b = true

instance : DecidableRel strRel := fun a b => by
  unfold strRel; infer_instance

instance : IsTotal Str strRel := ⟨fun a b => PyStr.strLe_total a b⟩

instance : IsTrans Str strRel := ⟨fun _ _ _ => PyStr.strLe_trans⟩

namespace Watcom

/-- `watcom.SUPPORTED_IDES`. -/
def SUPPORTED_IDES : List IDETypes := [.watcom]

/-- `watcom.test`: filter for supported platforms. -/
def test (_ide : IDETypes) (platform_type : PlatformTypes) : Bool :=
  [PlatformTypes.win32, PlatformTypes.msdos4gw,
   PlatformTypes.msdosx32].contains platform_type

/-- `watcom.Project.__init__` (named `Exporter` here to avoid clashing
with the model's `Project`): gather all configurations, the
configuration names deduplicated first-seen by name, and the distinct
platforms. -/
structure Exporter where
  solution : Solution
  platforms : List PlatformTypes
  configuration_list : List Configuration
  configuration_names : List Configuration

/-- Build the exporter state from a solution (`watcom.Project.__init__`;
the `project.get_file_list` call is represented by the project's
already-resolved `codefiles`). -/
def mkExporter (solution : Solution) : Exporter :=
  let configuration_list :=
    solution.project_list.flatMap (fun p => p.configuration_list)
  let configuration_names :=
    configuration_list.foldl
      (fun acc c =>
        if acc.any (fun i => i.name = c.name) then acc else acc ++ [c]) []
  let platforms :=
    configuration_list.foldl
      (fun acc c =>
        if c.platform ∈ acc then acc else acc ++ [c.platform]) []
  ⟨solution, platforms, configuration_list, configuration_names⟩

/-- `watcom.Project.write_header`. -/
def write_header (e : Exporter) (line_list : List Str) : List Str :=
  let line_list := line_list ++
    ["#".toList,
     "# Build ".toList ++ e.solution.name ++ " with WMAKE".toList] ++ ([
    "# Generated with makeprojects",
    "#",
    "# Require the environment variable WATCOM set to the OpenWatcom folder",
    "# Example: WATCOM=C:\\WATCOM",
    "#",
    "",
    "# This speeds up the building process for Watcom because it",
    "# keeps the apps in memory and doesn\x27t have to reload for every source file",
    "# Note: There is a bug that if the wlib app is loaded, it will not",
    "# get the proper WOW file if a full build is performed",
    "",
    "# The bug is gone from Watcom 1.2",
    "",
    "!ifdef %WATCOM",
    "!ifdef __LOADDLL__",
    "!loaddll wcc $(%WATCOM)/binnt/wccd",
    "!loaddll wccaxp $(%WATCOM)/binnt/wccdaxp",
    "!loaddll wcc386 $(%WATCOM)/binnt/wccd386",
    "!loaddll wpp $(%WATCOM)/binnt/wppdi86",
    "!loaddll wppaxp $(%WATCOM)/binnt/wppdaxp",
    "!loaddll wpp386 $(%WATCOM)/binnt/wppd386",
    "!loaddll wlink $(%WATCOM)/binnt/wlinkd",
    "!loaddll wlib $(%WATCOM)/binnt/wlibd",
    "!endif",
    "!endif"].map String.toList)
  -- Default configuration
  let config :=
    (e.configuration_list.foldl
      (fun config item =>
        if item.name = "Release".toList then some "Release".toList
        else if config = none then some item.name
        else config) none).getD "Release".toList
  let line_list := line_list ++ ([
    "", "#", "# Default configuration", "#", "",
    "!ifndef CONFIG"].map String.toList) ++
    ["CONFIG = ".toList ++ config] ++ ["!endif".toList]
  -- Default platform
  let target :=
    (e.platforms.foldl
      (fun target platform =>
        if platform = PlatformTypes.msdos4gw then some (shortCode platform)
        else if target = none then some (shortCode platform)
        else target) none).getD "Release".toList
  let line_list := line_list ++ ([
    "", "#", "# Default target", "#", "",
    "!ifndef TARGET"].map String.toList) ++
    ["TARGET = ".toList ++ target] ++ ["!endif".toList]
  let line_list := line_list ++
    (["", "#", "# Directory name fragments", "#", ""].map String.toList)
  let line_list := line_list ++
    e.platforms.map (fun platform =>
      "TARGET_SUFFIX_".toList ++ shortCode platform ++ " = ".toList ++
        last3 (shortCode platform))
  let line_list := line_list ++ [[]]
  let line_list := line_list ++
    e.configuration_names.map (fun item =>
      "CONFIG_SUFFIX_".toList ++ item.name ++ " = ".toList ++
        item.short_code)
  line_list ++ ([
    "",
    "#",
    "# Set the set of known files supported",
    "# Note: They are in the reverse order of building. .c is built first, then .x86",
    "# until the .exe or .lib files are built",
    "#",
    "",
    ".extensions:",
    ".extensions: .exe .exp .lib .obj .h .cpp .x86 .c .i86"].map
      String.toList)

/-- `watcom.Project.write_source_dir`. -/
def write_source_dir (e : Exporter) (line_list : List Str) : List Str :=
  let line_list := line_list ++ ([
    "", "#", "# Ensure sdks are pulled from the environment", "#", "",
    "BURGER_SDKS = $(%BURGER_SDKS)"].map String.toList)
  let line_list := line_list ++ ([
    "", "#", "# SOURCE_DIRS = Work directories for the source code", "#",
    ""].map String.toList)
  -- Extract the directories from the files, deduplicated first-seen
  let source_folders :=
    e.configuration_list.foldl
      (fun acc c =>
        (c.get_unique_chained_list "_source_include_list".toList).foldl
          (fun acc it => if it ∈ acc then acc else acc ++ [it]) acc) []
  let include_folders :=
    e.configuration_list.foldl
      (fun acc c =>
        (c.get_unique_chained_list "include_folders_list".toList).foldl
          (fun acc it => if it ∈ acc then acc else acc ++ [it]) acc) []
  let line_list := line_list ++
    (match List.insertionSort strRel source_folders with
     | [] => ["SOURCE_DIRS =".toList]
     | x :: rest =>
       ("SOURCE_DIRS =".toList ++ encapsulate_path_linux x) ::
         rest.map (fun it =>
           "SOURCE_DIRS +=;".toList ++ encapsulate_path_linux it))
  let line_list := line_list ++ ([
    "", "#", "# Name of the output library", "#", ""].map String.toList)
    ++ ["PROJECT_NAME = ".toList ++ e.solution.name]
  let line_list := line_list ++ ([
    "", "#", "# Base name of the temp directory", "#", "",
    "BASE_TEMP_DIR = temp/$(PROJECT_NAME)",
    "BASE_SUFFIX = wat$(TARGET_SUFFIX_$(%TARGET))$(CONFIG_SUFFIX_$(%CONFIG))",
    "TEMP_DIR = $(BASE_TEMP_DIR)$(BASE_SUFFIX)"].map String.toList)
  let line_list := line_list ++ ([
    "", "#", "# Binary directory", "#", "",
    "DESTINATION_DIR = bin"].map String.toList)
  let line_list := line_list ++ ([
    "", "#", "# INCLUDE_DIRS = Header includes", "#", "",
    "INCLUDE_DIRS = $(SOURCE_DIRS)"].map String.toList)
  line_list ++ include_folders.map (fun item =>
    "INCLUDE_DIRS +=;".toList ++ PyStr.linslash item)

end Watcom

namespace Watcom

/-- `watcom.Project.write_rules` (a fixed block of rule text). -/
def write_rules (line_list : List Str) : List Str :=
  line_list ++ ([
    "",
    "#",
    "# Tell WMAKE where to find the files to work with",
    "#",
    "",
    ".c: $(SOURCE_DIRS)",
    ".cpp: $(SOURCE_DIRS)",
    ".x86: $(SOURCE_DIRS)",
    ".i86: $(SOURCE_DIRS)",
    "",
    "#",
    "# Set the compiler flags for each of the build types",
    "#",
    "",
    "CFlagsDebug=-d_DEBUG -d2 -od",
    "CFlagsInternal=-d_DEBUG -d2 -oaxsh",
    "CFlagsRelease=-dNDEBUG -d0 -oaxsh",
    "",
    "#",
    "# Set the flags for each target operating system",
    "#",
    "",
    "CFlagscom=-bt=com -d__COM__=1 -i=\"$(%BURGER_SDKS)/dos/burgerlib;$(%BURGER_SDKS)/dos/x32;$(%WATCOM)/h\"",
    "CFlagsdosx32=-bt=DOS -d__X32__=1 -i=\"$(%BURGER_SDKS)/dos/burgerlib;$(%BURGER_SDKS)/dos/x32;$(%WATCOM)/h\"",
    "CFlagsdos4gw=-bt=DOS -d__DOS4G__=1 -i=\"$(%BURGER_SDKS)/dos/burgerlib;$(%BURGER_SDKS)/dos/sosaudio;$(%WATCOM)/h;$(%WATCOM)/h/nt\"",
    "CFlagsw32=-bt=NT -dGLUT_DISABLE_ATEXIT_HACK -dGLUT_NO_LIB_PRAGMA -dTARGET_CPU_X86=1 -dTARGET_OS_WIN32=1 -dTYPE_BOOL=1 -dUNICODE -d_UNICODE -dWIN32_LEAN_AND_MEAN -i=\"$(%BURGER_SDKS)/windows/burgerlib;$(%BURGER_SDKS)/windows/opengl;$(%BURGER_SDKS)/windows/directx9;$(%BURGER_SDKS)/windows/windows5;$(%BURGER_SDKS)/windows/quicktime7;$(%WATCOM)/h;$(%WATCOM)/h/nt\"",
    "",
    "#",
    "# Set the WASM flags for each of the build types",
    "#",
    "",
    "AFlagsDebug=-d_DEBUG",
    "AFlagsInternal=-d_DEBUG",
    "AFlagsRelease=-dNDEBUG",
    "",
    "#",
    "# Set the WASM flags for each operating system",
    "#",
    "",
    "AFlagscom=-d__COM__=1",
    "AFlagsdosx32=-d__X32__=1",
    "AFlagsdos4gw=-d__DOS4G__=1",
    "AFlagsw32=-d__WIN32__=1",
    "",
    "LFlagsDebug=",
    "LFlagsInternal=",
    "LFlagsRelease=",
    "",
    "LFlagscom=format dos com libp $(%BURGER_SDKS)/dos/burgerlib",
    "LFlagsx32=system x32r libp $(%BURGER_SDKS)/dos/burgerlib;$(%BURGER_SDKS)/dos/x32",
    "LFlagsdos4gw=system dos4g libp $(%BURGER_SDKS)/dos/burgerlib;$(%BURGER_SDKS)/dos/sosaudio",
    "LFlagsw32=system nt libp $(%BURGER_SDKS)/windows/burgerlib;$(%BURGER_SDKS)/windows/directx9 LIBRARY VERSION.lib,opengl32.lib,winmm.lib,shell32.lib,shfolder.lib",
    "",
    "# Now, set the compiler flags",
    "",
    "CL=WCC386 -6r -fp6 -w4 -ei -j -mf -zq -zp=8 -wcd=7 -i=$(INCLUDE_DIRS)",
    "CP=WPP386 -6r -fp6 -w4 -ei -j -mf -zq -zp=8 -wcd=7 -i=$(INCLUDE_DIRS)",
    "ASM=WASM -5r -fp6 -w4 -zq -d__WATCOM__=1",
    "LINK=*WLINK option caseexact option quiet PATH $(%WATCOM)/binnt;$(%WATCOM)/binw;.",
    "",
    "# Set the default build rules",
    "# Requires ASM, CP to be set",
    "",
    "# Macro expansion is on page 93 of the C//C++ Tools User\x27s Guide",
    "# $^* = C:\\dir\\target (No extension)",
    "# $[* = C:\\dir\\dep (No extension)",
    "# $^@ = C:\\dir\\target.ext",
    "# $^: = C:\\dir\\",
    "",
    ".i86.obj : .AUTODEPEND",
    "\t@echo $[&.i86 / $(%CONFIG) / $(%TARGET)",
    "\t@$(ASM) -0 -w4 -zq -d__WATCOM__=1 $(AFlags$(%CONFIG)) $(AFlags$(%TARGET)) $[*.i86 -fo=$^@ -fr=$^*.err",
    "",
    ".x86.obj : .AUTODEPEND",
    "\t@echo $[&.x86 / $(%CONFIG) / $(%TARGET)",
    "\t@$(ASM) $(AFlags$(%CONFIG)) $(AFlags$(%TARGET)) $[*.x86 -fo=$^@ -fr=$^*.err",
    "",
    ".c.obj : .AUTODEPEND",
    "\t@echo $[&.c / $(%CONFIG) / $(%TARGET)",
    "\t@$(CP) $(CFlags$(%CONFIG)) $(CFlags$(%TARGET)) $[*.c -fo=$^@ -fr=$^*.err",
    "",
    ".cpp.obj : .AUTODEPEND",
    "\t@echo $[&.cpp / $(%CONFIG) / $(%TARGET)",
    "\t@$(CP) $(CFlags$(%CONFIG)) $(CFlags$(%TARGET)) $[*.cpp -fo=$^@ -fr=$^*.err"].map
      String.toList)

/-- Strip the ` &` continuation from the final line of the object list
(`line_list[-1] = line_list[-1][:-2]`). -/
def chopLastTwo : List Str → List Str
  | [] => []
  | [x] => [x.take (x.length - 2)]
  | x :: rest => x :: chopLastTwo rest

/-- `watcom.Project.write_files`: emit the sorted `OBJS=` list, one
object per `.c`/`.cpp`/`.x86` source of the first project. -/
def write_files (e : Exporter) (line_list : List Str) : List Str :=
  let line_list := line_list ++ ([
    "", "#", "# Object files to work with for the library", "#",
    ""].map String.toList)
  let codefiles :=
    match e.solution.project_list with
    | p :: _ => p.codefiles
    | [] => []
  let obj_list := codefiles.filterMap (fun item =>
    if item.ftype = FileTypes.c ∨ item.ftype = FileTypes.cpp ∨
        item.ftype = FileTypes.x86 then
      let tempfile := PyStr.linslash item.relative_pathname
      let entry := (PyStr.takeBeforeLast '.' tempfile).getD tempfile
      let entry := (entry.reverse.takeWhile PyStr.notSlash).reverse
      some entry
    else none)
  match List.insertionSort strRel obj_list with
  | [] => line_list ++ ["OBJS=".toList]
  | x :: rest =>
    line_list ++ chopLastTwo
      (("OBJS= $(A)/".toList ++ x ++ ".obj &".toList) ::
        rest.map (fun it => "\t$(A)/".toList ++ it ++ ".obj &".toList))

/-- `watcom.Project.write_all_target`: the `all` rule, per-configuration
and per-platform phony targets, and the per-configuration build
recipes. -/
def write_all_target (e : Exporter) (watcom_filename : Str)
    (line_list : List Str) : List Str :=
  let line_list := line_list ++ ([
    "", "#", "# List the names of all of the final binaries to build",
    "#", ""].map String.toList)
  let line_list := line_list ++
    [List.intercalate " ".toList
      (("all:".toList :: e.configuration_names.map (fun c => c.name)) ++
        [".SYMBOLIC".toList])] ++ ["\t@%null".toList]
  let line_list := line_list ++
    (["", "#", "# Configurations", "#"].map String.toList)
  let line_list := line_list ++
    e.configuration_names.flatMap (fun configuration =>
      [[], List.intercalate " ".toList
        (((configuration.name ++ ":".toList) ::
          e.platforms.map (fun platform =>
            configuration.name ++ shortCode platform)) ++
          [".SYMBOLIC".toList]),
       "\t@%null".toList])
  let line_list := line_list ++
    e.platforms.flatMap (fun platform =>
      [[], List.intercalate " ".toList
        (((shortCode platform ++ ":".toList) ::
          e.configuration_list.map (fun configuration =>
            configuration.name ++ shortCode platform)) ++
          [".SYMBOLIC".toList]),
       "\t@%null".toList])
  let line_list := line_list ++
    e.configuration_list.flatMap (fun configuration =>
      let suffix := if configuration.project_type = ProjectTypes.library
        then "lib".toList else "exe".toList
      let platform := configuration.platform
      let nm := "wat".toList ++ last3 (shortCode platform) ++
        configuration.short_code
      [[],
       configuration.name ++ shortCode platform ++ ": .SYMBOLIC".toList,
       "\t@if not exist \"$(DESTINATION_DIR)\" @mkdir \"$(DESTINATION_DIR)\"".toList,
       "\t@if not exist \"$(BASE_TEMP_DIR)".toList ++ nm ++
         "\" @mkdir \"$(BASE_TEMP_DIR)".toList ++ nm ++ "\"".toList,
       "\t@set CONFIG=".toList ++ configuration.name,
       "\t@set TARGET=".toList ++ shortCode platform,
       "\t@%make $(DESTINATION_DIR)\\$(PROJECT_NAME)wat".toList ++
         last3 (shortCode platform) ++ configuration.short_code ++
         ".".toList ++ suffix])
  line_list ++
    (["", "#", "# Disable building this make file", "#", ""].map
      String.toList) ++
    [watcom_filename ++ ":".toList, "\t@%null".toList]

/-- `watcom.Project.write_builds`: the rules that link/lib each
configuration's binary. -/
def write_builds (e : Exporter) (watcom_filename : Str)
    (line_list : List Str) : List Str :=
  let line_list := line_list ++
    (["", "#", "# A = The object file temp folder", "#"].map
      String.toList)
  line_list ++
    e.configuration_list.flatMap (fun configuration =>
      let suffix := if configuration.project_type = ProjectTypes.library
        then ".lib".toList else ".exe".toList
      let base :=
        [[],
         "A = $(BASE_TEMP_DIR)wat".toList ++
           last3 (shortCode configuration.platform) ++
           configuration.short_code,
         "$(DESTINATION_DIR)\\$(PROJECT_NAME)wat".toList ++
           last3 (shortCode configuration.platform) ++
           configuration.short_code ++ suffix ++
           ": $+$(OBJS)$- ".toList ++ watcom_filename]
      if configuration.project_type = ProjectTypes.library then
        base ++
          ["\t@SET WOW=$+$(OBJS)$-".toList,
           "\t@WLIB -q -b -c -n $^@ @WOW".toList] ++
          (match configuration.deploy_folder with
           | some df =>
             -- convert_to_windows_slashes(.., force_ending_slash=True)[:-1]
             let w := PyStr.winslash df
             let w := if w.getLast? = some '\\' then w else w ++ ['\\']
             let deploy_folder := w.take (w.length - 1)
             ["\t@p4 edit \"".toList ++ deploy_folder ++
                "\\$^.\"".toList,
              "\t@copy /y \"$^@\" \"".toList ++ deploy_folder ++
                "\\$^.\"".toList,
              "\t@p4 revert -a \"".toList ++ deploy_folder ++
                "\\$^.\"".toList]
           | none => [])
      else
        base ++
          ["\t@SET WOW=\x7b$+$(OBJS)$-\x7d".toList,
           "\t@$(LINK) $(LFlags$(%TARGET)) $(LFlags$(%CONFIG)) LIBRARY burger$(BASE_SUFFIX).lib NAME $^@ FILE @wow".toList])

/-- `watcom.Project.generate`: emit all sections in order (its return
value is always 0). -/
def exporterGenerate (e : Exporter) (watcom_filename : Str) : List Str :=
  write_builds e watcom_filename
    (write_all_target e watcom_filename
      (write_files e
        (write_rules
          (write_source_dir e
            (write_header e [])))))

/-- `watcom.generate(solution)`: the unsupported-IDE failsafe, the
output filename, and the write of the generated lines
(`save_text_file_if_newer`), modelled as the returned error code paired
with the attempted write (path and lines), `none` when nothing is
written. -/
def generate (solution : Solution) : Nat × Option (Str × List Str) :=
  -- Failsafe
  if solution.ide ∉ SUPPORTED_IDES then (10, none)
  else
    let watcom_filename := solution.name ++ solution.ide_code ++
      solution.platform_code ++ ".wmk".toList
    let lines := exporterGenerate (mkExporter solution) watcom_filename
    (0, some (PyStr.pyJoin solution.working_directory watcom_filename,
      lines))

end Watcom

/-! ### Claim C9: the Watcom round trip -/

/-- Modelled from the spec (round-trip scenario, §8): one configuration
of the round-trip solution.  The short code comes from
`enums.configuration_short_code`; the project's scan of the single
source folder recorded `'.'` as the contributing directory
(`_source_include_list`), and no other chained attribute is set. -/
def roundTripConfig (nm : Str) (pl : PlatformTypes) : Configuration :=
  ⟨nm, (configuration_short_code nm).getD [], pl, .tool,
   nm = "Debug".toList, none, fun _ => [],
   fun a => if a = "_source_include_list".toList then [".".toList] else [],
   fun _ => none, fun _ => none⟩

/-- Modelled from the spec: the driver expands the family platform
`windows` into one configuration per member (`new_configuration` in
`__init__.py` does exactly this via `get_expanded`), for each requested
configuration name. -/
def roundTripConfigs : List Configuration :=
  ["Debug".toList, "Release".toList].flatMap (fun nm =>
    (PlatformTypes.get_expanded .windows).map (fun pl =>
      roundTripConfig nm pl))

/-- Modelled from the spec: the round-trip project `foo` whose resolved
source folder contains exactly `main.cpp` and `main.h`. -/
def roundTripProject : Project :=
  ⟨"foo".toList, roundTripConfigs,
   [⟨"main.cpp".toList, .cpp⟩, ⟨"main.h".toList, .h⟩], none⟩

/-- Modelled from the spec: the round-trip solution, named `foo`,
targeting the Watcom IDE on platform `windows` (short codes from the
`enums.py` tables). -/
def roundTripSolution : Solution :=
  ⟨"foo".toList, .watcom, (IDETypes.get_short_code .watcom).getD [],
   shortCode .windows, "wd".toList, true, false, [roundTripProject]⟩

/-- The single `.wmk` line list the Watcom emitter writes for the
round-trip solution. -/
def rtLines : List Str :=
  ((Watcom.generate roundTripSolution).2.map Prod.snd).getD []

/-- C9: the Watcom round trip.  The emitter succeeds and writes exactly
one `.wmk` file; the `OBJS` section consists of exactly one object
entry, `main.obj`, derived from `main.cpp` (a single `OBJS=` line and no
continuation lines, so `main.h` contributes no object); the line list
contains build targets named `Debug` and `Release`; and each
configuration builds a binary whose name carries `wat`, the platform
fragment, and that configuration's short-code suffix, with the `Debug`
and `Release` short codes distinct. -/
theorem c9_watcom_roundtrip :
    (Watcom.generate roundTripSolution).1 = 0 ∧
    ((Watcom.generate roundTripSolution).2.map Prod.fst)
      = some ("wd/foowatwin.wmk".toList) ∧
    rtLines.filter (fun l => PyStr.startswith l "OBJS=".toList)
      = ["OBJS= $(A)/main.obj".toList] ∧
    rtLines.filter (fun l => PyStr.startswith l "\t$(A)/".toList) = [] ∧
    "Debug: Debugw32 Debugw64 .SYMBOLIC".toList ∈ rtLines ∧
    "Release: Releasew32 Releasew64 .SYMBOLIC".toList ∈ rtLines ∧
    "\t@%make $(DESTINATION_DIR)\\$(PROJECT_NAME)watw32dbg.exe".toList
      ∈ rtLines ∧
    "\t@%make $(DESTINATION_DIR)\\$(PROJECT_NAME)watw64dbg.exe".toList
      ∈ rtLines ∧
    "\t@%make $(DESTINATION_DIR)\\$(PROJECT_NAME)watw32rel.exe".toList
      ∈ rtLines ∧
    "\t@%make $(DESTINATION_DIR)\\$(PROJECT_NAME)watw64rel.exe".toList
      ∈ rtLines ∧
    configuration_short_code "Debug".toList
      ≠ configuration_short_code "Release".toList := by
  refine ⟨rfl, rfl, by decide, by decide, by decide, by decide,
    by decide, by decide, by decide, by decide, by decide⟩

/-! ### `makeprojects/codewarrior.py` -/

namespace CW

/-- `codewarrior.SUPPORTED_IDES`. -/
def SUPPORTED_IDES : List IDETypes :=
  [.codewarrior50, .codewarrior58, .codewarrior59]

/-- `codewarrior.test`: filter for supported platforms (win32 only). -/
def test (_ide : IDETypes) (platform_type : PlatformTypes) : Bool :=
  [PlatformTypes.win32].contains platform_type

/-- `burger.truefalse`. -/
def truefalse (b : Bool) : Str := if b then "true".toList else "false".toList

/-- `codewarrior.SETTING`: a name, an optional value (a string or a list
of strings), and sub settings. -/
inductive SETTING where
  | node (name : Option Str) (value : Option (Str ⊕ List Str))
      (subsettings : List SETTING)

/-- A leaf `SETTING(name, value)`. -/
def leaf (name value : Str) : SETTING := .node (some name) (some (.inl value)) []

/-- `SETTING.generate`: append the XML lines of this setting.  The
`fuel` parameter bounds the nesting depth (the recursion over
`subsettings` is not structural); every tree built by this module has
depth below any generous fuel. -/
def SETTING.generate : Nat → SETTING → Nat → List Str → List Str
  | 0, _, _, line_list => line_list
  | fuel + 1, .node name value subs, level, line_list =>
    let tabs : Str := List.replicate level '\t'
    let entry := tabs ++ "<SETTING>".toList
    let entry := match name with
      | some n => entry ++ "<NAME>".toList ++ n ++ "</NAME>".toList
      | none => entry
    let state : List Str × Str := match value with
      | some (.inl v) =>
        (line_list, entry ++ "<VALUE>".toList ++ v ++ "</VALUE>".toList)
      | some (.inr items) =>
        let st := items.foldl
          (fun (p : List Str × Str) item => (p.1 ++ [p.2 ++ item], []))
          (line_list, entry ++ "<VALUE>".toList)
        (st.1, st.2 ++ "</VALUE>".toList)
      | none => (line_list, entry)
    match subs with
    | [] => state.1 ++ [state.2 ++ "</SETTING>".toList]
    | _ =>
      let line_list := state.1 ++ [state.2]
      let line_list := subs.foldl
        (fun ll s => SETTING.generate fuel s (level + 1) ll) line_list
      line_list ++ [tabs ++ "</SETTING>".toList]

/-- `codewarrior.UserSourceTree`: an environment-variable source tree
entry. -/
def UserSourceTree (name : Str) : SETTING :=
  .node none none
    [leaf "Name".toList name,
     leaf "Kind".toList "EnvironmentVariable".toList,
     leaf "VariableName".toList name]

/-- `codewarrior.SearchPath`: a path entry; a `$(ROOT)` prefix moves
into the `PathRoot` record. -/
def SearchPath (platform : PlatformTypes) (path : Str) (root : Option Str)
    (title : Str) : SETTING :=
  let state : Str × Option Str :=
    if PyStr.startswith path "$(".toList then
      match path.findIdx? (· = ')') with
      | some index =>
        let root := (path.take index).drop 2
        let path := path.drop (index + 1)
        let path := match path.head? with
          | some c => if c = '\\' ∨ c = '/' then path.drop 1 else path
          | none => path
        (path, some root)
      | none => (path, root)
    else (path, root)
  let pathset :=
    if platform.is_windows then
      [leaf "Path".toList (PyStr.winslash state.1),
       leaf "PathFormat".toList "Windows".toList]
    else
      [leaf "Path".toList (PyStr.linslash state.1),
       leaf "PathFormat".toList "Unix".toList]
  let pathset := match state.2 with
    | some r => pathset ++ [leaf "PathRoot".toList r]
    | none => pathset
  .node (some title) none pathset

/-- `codewarrior.SearchPathAndFlags`. -/
def SearchPathAndFlags (platform : PlatformTypes) (path : Str)
    (root : Option Str) (recursive : Bool) : List SETTING :=
  let recursive :=
    if PyStr.startswith path "$(CodeWarrior)".toList then true
    else recursive
  [SearchPath platform path root "SearchPath".toList,
   leaf "Recursive".toList (truefalse recursive),
   leaf "FrameworkPath".toList "false".toList,
   leaf "HostFlags".toList "All".toList]

/-- `codewarrior.MWProject_X86` settings. -/
def MWProject_X86 (projecttype : ProjectTypes) (filename : Str) :
    List SETTING :=
  let state : Str × Str :=
    if projecttype = ProjectTypes.library then
      ("Library".toList, ".lib".toList)
    else ("Application".toList, ".exe".toList)
  [leaf "MWProject_X86_type".toList state.1,
   leaf "MWProject_X86_outfile".toList (filename ++ state.2)]

/-- `codewarrior.MWFrontEnd_C` settings. -/
def MWFrontEnd_C : List SETTING :=
  [("MWFrontEnd_C_cplusplus", "1"), ("MWFrontEnd_C_templateparser", "0"),
   ("MWFrontEnd_C_instance_manager", "0"),
   ("MWFrontEnd_C_enableexceptions", "0"), ("MWFrontEnd_C_useRTTI", "0"),
   ("MWFrontEnd_C_booltruefalse", "1"), ("MWFrontEnd_C_wchar_type", "0"),
   ("MWFrontEnd_C_ecplusplus", "0"), ("MWFrontEnd_C_dontinline", "0"),
   ("MWFrontEnd_C_inlinelevel", "0"), ("MWFrontEnd_C_autoinline", "1"),
   ("MWFrontEnd_C_defer_codegen", "0"),
   ("MWFrontEnd_C_bottomupinline", "1"), ("MWFrontEnd_C_ansistrict", "0"),
   ("MWFrontEnd_C_onlystdkeywords", "0"), ("MWFrontEnd_C_trigraphs", "0"),
   ("MWFrontEnd_C_arm", "0"), ("MWFrontEnd_C_checkprotos", "1"),
   ("MWFrontEnd_C_c99", "1"), ("MWFrontEnd_C_gcc_extensions", "1"),
   ("MWFrontEnd_C_enumsalwaysint", "1"),
   ("MWFrontEnd_C_unsignedchars", "0"), ("MWFrontEnd_C_poolstrings", "1"),
   ("MWFrontEnd_C_dontreusestrings", "0")].map
    (fun p => leaf p.1.toList p.2.toList)

/-- `codewarrior.C_CPP_Preprocessor` settings: the define list becomes
`#define` lines in the prefix text. -/
def C_CPP_Preprocessor (defines : List Str) : List SETTING :=
  let definestring := defines.map (fun item => "#define ".toList ++ item)
  SETTING.node (some "C_CPP_Preprocessor_PrefixText".toList)
      (some (.inr definestring)) [] ::
    ([("C_CPP_Preprocessor_MultiByteEncoding", "encASCII_Unicode"),
      ("C_CPP_Preprocessor_PCHUsesPrefixText", "false"),
      ("C_CPP_Preprocessor_EmitPragmas", "true"),
      ("C_CPP_Preprocessor_KeepWhiteSpace", "false"),
      ("C_CPP_Preprocessor_EmitFullPath", "false"),
      ("C_CPP_Preprocessor_KeepComments", "false"),
      ("C_CPP_Preprocessor_EmitFile", "true"),
      ("C_CPP_Preprocessor_EmitLine", "false")].map
      (fun p => leaf p.1.toList p.2.toList))

/-- `codewarrior.MWWarning_C` settings. -/
def MWWarning_C : List SETTING :=
  [("MWWarning_C_warn_illpragma", "1"), ("MWWarning_C_warn_possunwant", "1"),
   ("MWWarning_C_pedantic", "1"), ("MWWarning_C_warn_illtokenpasting", "0"),
   ("MWWarning_C_warn_hidevirtual", "1"),
   ("MWWarning_C_warn_implicitconv", "1"),
   ("MWWarning_C_warn_impl_f2i_conv", "1"),
   ("MWWarning_C_warn_impl_s2u_conv", "1"),
   ("MWWarning_C_warn_impl_i2f_conv", "1"),
   ("MWWarning_C_warn_ptrintconv", "1"), ("MWWarning_C_warn_unusedvar", "1"),
   ("MWWarning_C_warn_unusedarg", "1"),
   ("MWWarning_C_warn_resultnotused", "0"),
   ("MWWarning_C_warn_missingreturn", "1"),
   ("MWWarning_C_warn_no_side_effect", "1"),
   ("MWWarning_C_warn_extracomma", "1"),
   ("MWWarning_C_warn_structclass", "1"),
   ("MWWarning_C_warn_emptydecl", "1"),
   ("MWWarning_C_warn_filenamecaps", "0"),
   ("MWWarning_C_warn_filenamecapssystem", "0"),
   ("MWWarning_C_warn_padding", "0"), ("MWWarning_C_warn_undefmacro", "0"),
   ("MWWarning_C_warn_notinlined", "0"),
   ("MWWarning_C_warningerrors", "0")].map
    (fun p => leaf p.1.toList p.2.toList)

/-- `codewarrior.MWCodeGen_X86` settings. -/
def MWCodeGen_X86 (configuration : Str) : List SETTING :=
  let state : Str × Str :=
    if configuration = "Debug".toList then ("1".toList, "0".toList)
    else ("0".toList, "1".toList)
  ([("MWCodeGen_X86_processor", "PentiumIV"),
    ("MWCodeGen_X86_use_extinst", "1"), ("MWCodeGen_X86_extinst_mmx", "0"),
    ("MWCodeGen_X86_extinst_3dnow", "0"),
    ("MWCodeGen_X86_extinst_cmov", "1"), ("MWCodeGen_X86_extinst_sse", "0"),
    ("MWCodeGen_X86_extinst_sse2", "0"),
    ("MWCodeGen_X86_use_mmx_3dnow_convention", "0"),
    ("MWCodeGen_X86_vectorize", "0"), ("MWCodeGen_X86_profile", "0"),
    ("MWCodeGen_X86_readonlystrings", "1"),
    ("MWCodeGen_X86_alignment", "bytes8"),
    ("MWCodeGen_X86_intrinsics", "1")].map
    (fun p => leaf p.1.toList p.2.toList)) ++
  [leaf "MWCodeGen_X86_optimizeasm".toList state.2,
   leaf "MWCodeGen_X86_disableopts".toList state.1] ++
  ([("MWCodeGen_X86_relaxieee", "1"),
    ("MWCodeGen_X86_exceptions", "ZeroOverhead"),
    ("MWCodeGen_X86_name_mangling", "MWWin32")].map
    (fun p => leaf p.1.toList p.2.toList))

/-- `codewarrior.GlobalOptimizer_X86` settings. -/
def GlobalOptimizer_X86 (configuration : Str) : List SETTING :=
  let level := if configuration = "Debug".toList then "Level0".toList
    else "Level4".toList
  [leaf "GlobalOptimizer_X86__optimizationlevel".toList level,
   leaf "GlobalOptimizer_X86__optfor".toList "Size".toList]

/-- `codewarrior.PDisasmX86` settings. -/
def PDisasmX86 : List SETTING :=
  [("PDisasmX86_showHeaders", "true"), ("PDisasmX86_showSectHeaders", "true"),
   ("PDisasmX86_showSymTab", "true"), ("PDisasmX86_showCode", "true"),
   ("PDisasmX86_showData", "true"), ("PDisasmX86_showDebug", "false"),
   ("PDisasmX86_showExceptions", "false"),
   ("PDisasmX86_showRelocation", "true"), ("PDisasmX86_showRaw", "false"),
   ("PDisasmX86_showAllRaw", "false"), ("PDisasmX86_showSource", "false"),
   ("PDisasmX86_showHex", "true"), ("PDisasmX86_showComments", "false"),
   ("PDisasmX86_resolveLocals", "false"),
   ("PDisasmX86_resolveRelocs", "true"), ("PDisasmX86_showSymDefs", "true"),
   ("PDisasmX86_unmangle", "false"), ("PDisasmX86_verbose", "false")].map
    (fun p => leaf p.1.toList p.2.toList)

/-- `codewarrior.MWLinker_X86` settings. -/
def MWLinker_X86 : List SETTING :=
  [("MWLinker_X86_runtime", "Custom"), ("MWLinker_X86_linksym", "0"),
   ("MWLinker_X86_linkCV", "1"), ("MWLinker_X86_symfullpath", "false"),
   ("MWLinker_X86_linkdebug", "true"), ("MWLinker_X86_debuginline", "true"),
   ("MWLinker_X86_subsystem", "Unknown"),
   ("MWLinker_X86_entrypointusage", "Default"),
   ("MWLinker_X86_entrypoint", ""), ("MWLinker_X86_codefolding", "Any"),
   ("MWLinker_X86_usedefaultlibs", "true"),
   ("MWLinker_X86_adddefaultlibs", "false"),
   ("MWLinker_X86_mergedata", "true"),
   ("MWLinker_X86_zero_init_bss", "false"),
   ("MWLinker_X86_generatemap", "0"), ("MWLinker_X86_checksum", "false"),
   ("MWLinker_X86_linkformem", "false"),
   ("MWLinker_X86_nowarnings", "false"), ("MWLinker_X86_verbose", "false"),
   ("MWLinker_X86_commandfile", "")].map
    (fun p => leaf p.1.toList p.2.toList)

end CW

namespace CW

/-- Split a string on a separator character (Python `str.split`). -/
def splitChar (c : Char) : Str → Str → List Str
  | [], acc => [acc.reverse]
  | x :: rest, acc =>
    if x = c then acc.reverse :: splitChar c rest []
    else splitChar c rest (x :: acc)

/-- `codewarrior.FILE`: one file entry of a target. -/
structure FILE where
  filename : Str
  format : Str
  kind : Str
  flags : Str

/-- `codewarrior.FILE.__init__`. -/
def FILE.init (platform : PlatformTypes) (configuration : Str)
    (filename : Str) : FILE :=
  let state : Str × Str :=
    if platform.is_windows then (PyStr.winslash filename, "Windows".toList)
    else (PyStr.linslash filename, "Unix".toList)
  let fn := state.1
  if PyStr.endswith fn ".lib".toList ∨ PyStr.endswith fn ".a".toList then
    ⟨fn, state.2, "Library".toList, []⟩
  else
    ⟨fn, state.2, "Text".toList,
     if configuration ≠ "Release".toList ∧
         (PyStr.endswith fn ".c".toList ∨ PyStr.endswith fn ".cpp".toList)
       then "Debug".toList else []⟩

/-- `codewarrior.FILE.generate`. -/
def FILE.generate (f : FILE) (level : Nat) (line_list : List Str) :
    List Str :=
  let tabs : Str := List.replicate level '\t'
  let tabs2 := tabs ++ ['\t']
  line_list ++
    [tabs ++ "<FILE>".toList,
     tabs2 ++ "<PATHTYPE>Name</PATHTYPE>".toList,
     tabs2 ++ "<PATH>".toList ++ f.filename ++ "</PATH>".toList,
     tabs2 ++ "<PATHFORMAT>".toList ++ f.format ++ "</PATHFORMAT>".toList,
     tabs2 ++ "<FILEKIND>".toList ++ f.kind ++ "</FILEKIND>".toList,
     tabs2 ++ "<FILEFLAGS>".toList ++ f.flags ++ "</FILEFLAGS>".toList,
     tabs ++ "</FILE>".toList]

/-- `codewarrior.FILEREF`. -/
structure FILEREF where
  configuration : Option Str
  filename : Str
  format : Str

/-- `codewarrior.FILEREF.__init__`. -/
def FILEREF.init (platform : PlatformTypes) (configuration : Option Str)
    (filename : Str) : FILEREF :=
  if platform.is_windows then
    ⟨configuration, PyStr.winslash filename, "Windows".toList⟩
  else
    ⟨configuration, PyStr.linslash filename, "Unix".toList⟩

/-- `codewarrior.FILEREF.generate`. -/
def FILEREF.generate (f : FILEREF) (level : Nat) (line_list : List Str) :
    List Str :=
  let tabs : Str := List.replicate level '\t'
  let tabs2 := tabs ++ ['\t']
  let line_list := line_list ++ [tabs ++ "<FILEREF>".toList]
  let line_list := match f.configuration with
    | some c => line_list ++
        [tabs2 ++ "<TARGETNAME>".toList ++ c ++ "</TARGETNAME>".toList]
    | none => line_list
  line_list ++
    [tabs2 ++ "<PATHTYPE>Name</PATHTYPE>".toList,
     tabs2 ++ "<PATH>".toList ++ f.filename ++ "</PATH>".toList,
     tabs2 ++ "<PATHFORMAT>".toList ++ f.format ++ "</PATHFORMAT>".toList,
     tabs ++ "</FILEREF>".toList]

/-- `codewarrior.GROUP`: a named file group tree. -/
inductive GROUP where
  | node (name : Option Str) (groups : List GROUP)
      (filerefs : List FILEREF)

/-- The (sort) name of a group. -/
def GROUP.nameOf : GROUP → Str
  | .node n _ _ => n.getD []

/-- `GROUP.addfileref`: append unless the filename is already present. -/
def GROUP.addfileref (platform : PlatformTypes) (configuration : Option Str)
    (filename : Str) : GROUP → GROUP
  | .node name groups refs =>
    if refs.any (fun r => r.filename = filename) then .node name groups refs
    else .node name groups (refs ++ [FILEREF.init platform configuration filename])

/-- `codewarrior.Project.addtogroups`'s walk: create/extend nested
groups along `parts`, attaching the last part as a file reference. -/
def GROUP.insertPath (platform : PlatformTypes)
    (configuration : Option Str) : GROUP → List Str → GROUP
  | g, [] => g
  | g, [last] => g.addfileref platform configuration last
  | .node name groups refs, p :: rest =>
    match groups.findIdx? (fun gr => gr.nameOf = p) with
    | some i =>
      let sub := groups.getD i (.node (some p) [] [])
      .node name (groups.set i (GROUP.insertPath platform configuration sub rest)) refs
    | none =>
      .node name
        (groups ++ [GROUP.insertPath platform configuration
          (.node (some p) [] []) rest]) refs

/-- Ordering of sub-groups (`key=operator.attrgetter('name')`). -/
def groupRel (a b : GROUP) : Prop :=
  PyStr.strLe a.nameOf b.nameOf = true

instance : DecidableRel groupRel := fun a b => by
  unfold groupRel; infer_instance

/-- Ordering of file references (`key=lambda s: s.filename.lower()`). -/
def filerefRel (a b : FILEREF) : Prop :=
  PyStr.strLe (PyStr.lower a.filename) (PyStr.lower b.filename) = true

instance : DecidableRel filerefRel := fun a b => by
  unfold filerefRel; infer_instance

/-- `codewarrior.GROUP.generate` (fuel bounds the nesting depth). -/
def GROUP.generate : Nat → GROUP → Nat → List Str → List Str
  | 0, _, _, line_list => line_list
  | fuel + 1, .node name groups refs, level, line_list =>
    let groupstring := if level = 1 then "GROUPLIST".toList
      else "GROUP".toList
    let tabs : Str := List.replicate level '\t'
    let entry := tabs ++ ['<'] ++ groupstring ++ ['>']
    let entry := match name with
      | some n => entry ++ "<NAME>".toList ++ n ++ "</NAME>".toList
      | none => entry
    let line_list := line_list ++ [entry]
    let line_list := (List.insertionSort groupRel groups).foldl
      (fun ll g => GROUP.generate fuel g (level + 1) ll) line_list
    let line_list := (List.insertionSort filerefRel refs).foldl
      (fun ll r => r.generate (level + 1) ll) line_list
    line_list ++ [tabs ++ "</".toList ++ groupstring ++ ['>']]

/-- `codewarrior.TARGET`: one build target of the project file. -/
structure TARGET where
  name : Str
  linker : Str
  settinglist : List SETTING
  filelist : List FILE
  linkorder : List FILEREF
  subtargetlist : List Str

/-- `codewarrior.TARGET.generate` (level is always 2 in this module). -/
def TARGET.generate (t : TARGET) (line_list : List Str) : List Str :=
  let tabs : Str := List.replicate 2 '\t'
  let tabs2 := tabs ++ ['\t']
  let line_list := line_list ++
    [tabs ++ "<TARGET>".toList,
     tabs2 ++ "<NAME>".toList ++ t.name ++ "</NAME>".toList,
     tabs2 ++ "<SETTINGLIST>".toList]
  let line_list := t.settinglist.foldl
    (fun ll s => SETTING.generate 64 s 4 ll) line_list
  let line_list := line_list ++ [tabs2 ++ "</SETTINGLIST>".toList,
    tabs2 ++ "<FILELIST>".toList]
  let line_list := t.filelist.foldl (fun ll f => f.generate 4 ll) line_list
  let line_list := line_list ++ [tabs2 ++ "</FILELIST>".toList,
    tabs2 ++ "<LINKORDER>".toList]
  let line_list := t.linkorder.foldl (fun ll f => f.generate 4 ll) line_list
  let line_list := line_list ++ [tabs2 ++ "</LINKORDER>".toList,
    tabs2 ++ "<SUBTARGETLIST>".toList]
  let line_list := t.subtargetlist.foldl
    (fun ll nm =>
      ll ++ [tabs2 ++ ['\t'] ++ "<SUBTARGET>".toList,
        tabs2 ++ "\t\t".toList ++ "<TARGETNAME>".toList ++ nm ++
          "</TARGETNAME>".toList,
        tabs2 ++ ['\t'] ++ "</SUBTARGET>".toList]) line_list
  line_list ++ [tabs2 ++ "</SUBTARGETLIST>".toList,
    tabs ++ "</TARGET>".toList]

end CW

namespace CW

/-- The effective platform of a project
(`if project.platform is None: project.platform =
project.configuration_list[0].platform`; a project with neither — on
which the Python would raise — is not reachable in the scenarios
considered). -/
def effPlatform (p : Project) : PlatformTypes :=
  match p.platform with
  | some pl => pl
  | none =>
    match p.configuration_list.head? with
    | some c => c.platform
    | none => PlatformTypes.windows

/-- Case-insensitive string sort key (`key=unicode.lower`). -/
def lowerRel (a b : Str) : Prop :=
  PyStr.strLe (PyStr.lower a) (PyStr.lower b) = true

instance : DecidableRel lowerRel := fun a b => by
  unfold lowerRel; infer_instance

/-- `codewarrior.Project` (exporter) state after `__init__`:
the `Everything` root target's sub-target names, the per-configuration
targets, the ordered target names, and the file group tree. -/
structure Exporter where
  solution : Solution
  targets : List TARGET
  rootsubs : List Str
  orderedtargets : List Str
  group : GROUP

/-- Per-configuration body of `codewarrior.Project.__init__`: produce
the target (and updated group tree) for one configuration. -/
def configTarget (solution : Solution) (projPlatform firstPlatform :
    PlatformTypes) (alllists : List CodeFile) (linker : Str)
    (conf : Configuration) (group : GROUP) : TARGET × GROUP :=
  -- Default the library folders and MSL library on Windows
  let conf :=
    if conf.attrs "library_folders_list".toList = [] ∧
        projPlatform.is_windows then
      let addLib := ¬ conf.project_type.is_library
      let msl := if conf.debug then "MSL_All_x86_D.lib".toList
        else "MSL_All_x86.lib".toList
      { conf with attrs := fun a =>
          if a = "library_folders_list".toList then
            ["$(CodeWarrior)/MSL".toList,
             "$(CodeWarrior)/Win32-x86 Support".toList]
          else if a = "libraries_list".toList ∧ addLib then
            conf.attrs a ++ [msl]
          else conf.attrs a }
    else conf
  let settings : List SETTING :=
    [leaf "Linker".toList linker, leaf "Targetname".toList conf.name]
  -- UserSourceTrees from chained environment variables
  let env_list := conf.get_unique_chained_list
    "cw_environment_variables".toList
  let settings := settings ++
    (if env_list ≠ [] then
      [SETTING.node (some "UserSourceTrees".toList) none
        (env_list.map UserSourceTree)]
     else [])
  -- OutputDirectory
  let settings := settings ++
    [SearchPath conf.platform "bin".toList (some "Project".toList)
      "OutputDirectory".toList]
  -- User include folders
  let user_list := conf.get_unique_chained_list
      "_source_include_list".toList ++
    conf.get_unique_chained_list "include_folders_list".toList
  let settings := settings ++
    (if user_list ≠ [] then
      [SETTING.node (some "UserSearchPaths".toList) none
        (user_list.map (fun item => SETTING.node none none
          (SearchPathAndFlags conf.platform item
            (some "Project".toList) false)))]
     else [])
  -- System include folders
  let system_list := conf.get_unique_chained_list
    "_library_folders_list".toList
  let settings := settings ++
    (if system_list ≠ [] then
      [SETTING.node (some "SystemSearchPaths".toList) none
        (system_list.map (fun item => SETTING.node none none
          (SearchPathAndFlags firstPlatform item
            (some "CodeWarrior".toList) false)))]
     else [])
  -- Generic settings for all platforms
  let settings := settings ++ MWFrontEnd_C ++
    C_CPP_Preprocessor (conf.get_chained_list "define_list".toList) ++
    MWWarning_C
  -- Windows settings
  let settings := settings ++
    (if conf.platform.is_windows then
      MWProject_X86 conf.project_type
        (solution.name ++ (solution.ide.get_short_code).getD [] ++
          "w32".toList ++ conf.short_code) ++
      MWCodeGen_X86 conf.name ++ GlobalOptimizer_X86 conf.name ++
      PDisasmX86 ++ MWLinker_X86
     else [])
  -- Libraries to link, applications only
  let liblist := if ¬ conf.project_type.is_library then
      conf.get_unique_chained_list "libraries_list".toList
    else []
  -- File and group lists
  let state : List FILE × List FILEREF × GROUP :=
    if alllists ≠ [] ∨ liblist ≠ [] then
      let state0 : List Str × GROUP := alllists.foldl
        (fun (p : List Str × GROUP) item =>
          let parts := splitChar '/'
            (PyStr.linslash item.relative_pathname) []
          let base := (parts.getLast?).getD []
          (p.1 ++ [base],
           p.2.insertPath conf.platform (some conf.name)
             (parts.dropWhile (fun q => q = ".".toList ∨ q = "..".toList))))
        ([], group)
      let filelist := List.insertionSort lowerRel state0.1
      let files := filelist.map (fun item =>
        FILE.init conf.platform conf.name item)
      let refs := filelist.map (fun item =>
        FILEREF.init conf.platform none item)
      let libsorted := List.insertionSort lowerRel liblist
      let state1 : List FILE × List FILEREF × GROUP := libsorted.foldl
        (fun (p : List FILE × List FILEREF × GROUP) item =>
          (p.1 ++ [FILE.init conf.platform conf.name item],
           p.2.1 ++ [FILEREF.init conf.platform none item],
           p.2.2.insertPath conf.platform (some conf.name)
             ["Libraries".toList, item]))
        (files, refs, state0.2)
      state1
    else ([], [], group)
  (⟨conf.name, linker, settings, state.1, state.2.1, []⟩, state.2.2)

/-- `codewarrior.Project.__init__`: the `Everything` root target plus
one target per configuration of every project; the root's sub-target
list and the ordered-target list collect the configuration names. -/
def mkExporter (solution : Solution) : Exporter :=
  let firstPlatform := match solution.project_list.head? with
    | some p0 => effPlatform p0
    | none => PlatformTypes.windows
  let state : List TARGET × List Str × GROUP :=
    solution.project_list.foldl
      (fun (acc : List TARGET × List Str × GROUP) project =>
        let projPlatform := effPlatform project
        let listh := project.codefiles.filter
          (fun f => f.ftype = FileTypes.h)
        let listcpp := project.codefiles.filter
          (fun f => f.ftype = FileTypes.cpp)
        let listwindowsresource :=
          if projPlatform.is_windows then
            project.codefiles.filter (fun f => f.ftype = FileTypes.rc)
          else []
        let alllists := listh ++ listcpp ++ listwindowsresource
        let linker := if projPlatform.is_windows then
            "Win32 x86 Linker".toList
          else "MacOS PPC Linker".toList
        project.configuration_list.foldl
          (fun (acc : List TARGET × List Str × GROUP) conf =>
            let tg := configTarget solution projPlatform firstPlatform
              alllists linker conf acc.2.2
            (acc.1 ++ [tg.1], acc.2.1 ++ [conf.name], tg.2))
          acc)
      ([], [], GROUP.node none [] [])
  let everything : TARGET :=
    ⟨"Everything".toList, "None".toList,
     [leaf "Linker".toList "None".toList,
      leaf "Targetname".toList "Everything".toList],
     [], [], state.2.1⟩
  ⟨solution, everything :: state.1, state.2.1,
   "Everything".toList :: (state.1.map (fun t => t.name)), state.2.2⟩

/-- `codewarrior.Project.generate`: the XML header, DTD template, target
list, target order and group list. -/
def exporterGenerate (e : Exporter) : List Str :=
  let line_list :=
    ["<?xml version=\"1.0\" encoding=\"UTF-8\" standalone=\"yes\" ?>".toList]
  let state : Str × Str :=
    if e.solution.ide = IDETypes.codewarrior59 then
      ("2.0".toList, "5.9.0".toList)
    else if e.solution.ide = IDETypes.codewarrior58 then
      ("2.0".toList, "5.8".toList)
    else ("1.0.1".toList, "5.0".toList)
  let line_list := line_list ++
    ["<?codewarrior exportversion=\"".toList ++ state.1 ++
      "\" ideversion=\"".toList ++ state.2 ++ "\" ?>".toList]
  let line_list := line_list ++ ([
    "",
    "<!DOCTYPE PROJECT [",
    "<!ELEMENT PROJECT (TARGETLIST, TARGETORDER, GROUPLIST, DESIGNLIST?)>",
    "<!ELEMENT TARGETLIST (TARGET+)>",
    "<!ELEMENT TARGET (NAME, SETTINGLIST, FILELIST?, LINKORDER?, SEGMENTLIST?, OVERLAYGROUPLIST?, SUBTARGETLIST?, SUBPROJECTLIST?, FRAMEWORKLIST?, PACKAGEACTIONSLIST?)>",
    "<!ELEMENT NAME (#PCDATA)>",
    "<!ELEMENT USERSOURCETREETYPE (#PCDATA)>",
    "<!ELEMENT PATH (#PCDATA)>",
    "<!ELEMENT FILELIST (FILE*)>",
    "<!ELEMENT FILE (PATHTYPE, PATHROOT?, ACCESSPATH?, PATH, PATHFORMAT?, ROOTFILEREF?, FILEKIND?, FILEFLAGS?)>",
    "<!ELEMENT PATHTYPE (#PCDATA)>",
    "<!ELEMENT PATHROOT (#PCDATA)>",
    "<!ELEMENT ACCESSPATH (#PCDATA)>",
    "<!ELEMENT PATHFORMAT (#PCDATA)>",
    "<!ELEMENT ROOTFILEREF (PATHTYPE, PATHROOT?, ACCESSPATH?, PATH, PATHFORMAT?)>",
    "<!ELEMENT FILEKIND (#PCDATA)>",
    "<!ELEMENT FILEFLAGS (#PCDATA)>",
    "<!ELEMENT FILEREF (TARGETNAME?, PATHTYPE, PATHROOT?, ACCESSPATH?, PATH, PATHFORMAT?)>",
    "<!ELEMENT TARGETNAME (#PCDATA)>",
    "<!ELEMENT SETTINGLIST ((SETTING|PANELDATA)+)>",
    "<!ELEMENT SETTING (NAME?, (VALUE|(SETTING+)))>",
    "<!ELEMENT PANELDATA (NAME, VALUE)>",
    "<!ELEMENT VALUE (#PCDATA)>",
    "<!ELEMENT LINKORDER (FILEREF*)>",
    "<!ELEMENT SEGMENTLIST (SEGMENT+)>",
    "<!ELEMENT SEGMENT (NAME, ATTRIBUTES?, FILEREF*)>",
    "<!ELEMENT ATTRIBUTES (#PCDATA)>",
    "<!ELEMENT OVERLAYGROUPLIST (OVERLAYGROUP+)>",
    "<!ELEMENT OVERLAYGROUP (NAME, BASEADDRESS, OVERLAY*)>",
    "<!ELEMENT BASEADDRESS (#PCDATA)>",
    "<!ELEMENT OVERLAY (NAME, FILEREF*)>",
    "<!ELEMENT SUBTARGETLIST (SUBTARGET+)>",
    "<!ELEMENT SUBTARGET (TARGETNAME, ATTRIBUTES?, FILEREF?)>",
    "<!ELEMENT SUBPROJECTLIST (SUBPROJECT+)>",
    "<!ELEMENT SUBPROJECT (FILEREF, SUBPROJECTTARGETLIST)>",
    "<!ELEMENT SUBPROJECTTARGETLIST (SUBPROJECTTARGET*)>",
    "<!ELEMENT SUBPROJECTTARGET (TARGETNAME, ATTRIBUTES?, FILEREF?)>",
    "<!ELEMENT FRAMEWORKLIST (FRAMEWORK+)>",
    "<!ELEMENT FRAMEWORK (FILEREF, DYNAMICLIBRARY?, VERSION?)>",
    "<!ELEMENT PACKAGEACTIONSLIST (PACKAGEACTION+)>",
    "<!ELEMENT PACKAGEACTION (#PCDATA)>",
    "<!ELEMENT LIBRARYFILE (FILEREF)>",
    "<!ELEMENT VERSION (#PCDATA)>",
    "<!ELEMENT TARGETORDER (ORDEREDTARGET|ORDEREDDESIGN)*>",
    "<!ELEMENT ORDEREDTARGET (NAME)>",
    "<!ELEMENT ORDEREDDESIGN (NAME, ORDEREDTARGET+)>",
    "<!ELEMENT GROUPLIST (GROUP|FILEREF)*>",
    "<!ELEMENT GROUP (NAME, (GROUP|FILEREF)*)>",
    "<!ELEMENT DESIGNLIST (DESIGN+)>",
    "<!ELEMENT DESIGN (NAME, DESIGNDATA)>",
    "<!ELEMENT DESIGNDATA (#PCDATA)>",
    "]>",
    ""].map String.toList)
  let line_list := line_list ++ ["<PROJECT>".toList,
    "\t<TARGETLIST>".toList]
  let line_list := e.targets.foldl (fun ll t => t.generate ll) line_list
  let line_list := line_list ++ ["\t</TARGETLIST>".toList,
    "\t<TARGETORDER>".toList]
  let line_list := e.orderedtargets.foldl
    (fun ll nm => ll ++ ["\t\t".toList ++
      "<ORDEREDTARGET><NAME>".toList ++ nm ++
      "</NAME></ORDEREDTARGET>".toList]) line_list
  let line_list := line_list ++ ["\t</TARGETORDER>".toList]
  let line_list := GROUP.generate 64 e.group 1 line_list
  line_list ++ ["</PROJECT>".toList]

/-- `codewarrior.generate(solution)`: the unsupported-IDE failsafe, the
`.mcp.xml` write, and the optional Metrowerks conversion step.  The
environment is passed in: `cwFolder` is `os.getenv('CWFolder')`,
`saveChanged` the `save_text_file_if_newer` result and
`subprocessResult` the exit code of the IDE conversion subprocess (only
consulted for `codewarrior50` with `CWFolder` set).  Returns the error
code paired with the attempted text write (path and lines); `none` when
nothing is written. -/
def generate (cwFolder : Option Str) (saveChanged : Bool)
    (subprocessResult : Nat) (solution : Solution) :
    Nat × Option (Str × List Str) :=
  -- Failsafe
  if solution.ide ∉ SUPPORTED_IDES then (10, none)
  else
    let codewarrior_filename := solution.name ++ solution.ide_code ++
      solution.platform_code ++ ".mcp".toList
    let codewarrior_lines := exporterGenerate (mkExporter solution)
    let xml_filename := PyStr.pyJoin solution.working_directory
      (codewarrior_filename ++ ".xml".toList)
    let error :=
      if ¬ saveChanged ∧ cwFolder.isSome ∧
          solution.ide ∈ [IDETypes.codewarrior50] then
        subprocessResult
      else 0
    (error, some (xml_filename, codewarrior_lines))

end CW

/-- Modelled from the spec: a solution requesting CodeWarrior 5.9
output for a project whose single configuration targets `linux` — the
combination the emitter does not support (`codewarrior.test` rejects
every platform except `win32`). -/
def c8Solution : Solution :=
  ⟨"foo".toList, .codewarrior59, "c59".toList, "lnx".toList,
   "./wd".toList, false, false,
   [⟨"foo".toList,
     [⟨"Debug".toList, "dbg".toList, .linux, .tool, true, none,
       fun _ => [], fun _ => [], fun _ => none, fun _ => none⟩],
     [], none⟩]⟩

/-- **C8** (counterexample).  Requesting CodeWarrior-59 output for a
linux-platform project is an unsupported combination
(`codewarrior.test` returns False for it), yet `codewarrior.generate`
— which checks only the IDE, never the platform — returns 0 and still
writes the `foo c59 lnx .mcp.xml` project file.  This refutes the
claim that every unsupported IDE/platform combination yields a
non-zero result with no file write. -/
theorem c8_unsupported_counterexample :
    CW.test IDETypes.codewarrior59 PlatformTypes.linux = false ∧
    (CW.generate none true 0 c8Solution).1 = 0 ∧
    ∃ lines, (CW.generate none true 0 c8Solution).2 =
      some ("./wd/fooc59lnx.mcp.xml".toList, lines) :=
  ⟨rfl, rfl, _, rfl⟩

/-- **C8** (amended).  The failure mode the emitters actually
implement: the failsafe guards the IDE alone.  Whenever the solution's
IDE is outside the emitter's `SUPPORTED_IDES`, `generate` returns the
non-zero error 10 and attempts no file write — for the CodeWarrior
emitter under every environment (CWFolder, save result, subprocess
result) and for the Watcom emitter alike.  The platform plays no part
in the check. -/
theorem c8_unsupported_amended :
    ∀ (solution : Solution) (cwFolder : Option Str) (saved : Bool)
      (subRes : Nat),
      (solution.ide ∉ CW.SUPPORTED_IDES →
        CW.generate cwFolder saved subRes solution = (10, none)) ∧
      (solution.ide ∉ Watcom.SUPPORTED_IDES →
        Watcom.generate solution = (10, none)) := by
  intro solution cwFolder saved subRes
  constructor
  · intro h
    unfold CW.generate
    rw [if_pos h]
  · intro h
    unfold Watcom.generate
    rw [if_pos h]

/-- **C8** (witness).  The amended theorem applied to the concrete
unsupported solution: its IDE `codewarrior59` is outside the Watcom
emitter's supported set, and a variant retargeted at `vs2019` is
outside the CodeWarrior emitter's set; both `generate` calls return
`(10, none)`. -/
theorem c8_unsupported_amended_witness :
    Watcom.generate c8Solution = (10, none) ∧
    CW.generate none true 0 { c8Solution with ide := .vs2019 } =
      (10, none) :=
  ⟨(c8_unsupported_amended c8Solution none true 0).2 (by decide),
   (c8_unsupported_amended { c8Solution with ide := .vs2019 }
     none true 0).1 (by decide)⟩
